import Mathlib

/-!
Verification development for the Skool content extractor's video URL
resolution and deduplication core (`skool_content_extractor.py`).

Strings are modelled as `List Char`.  Python regular-expression searches
(`re.search`) are modelled by explicit left-to-right scanners that try the
pattern at every position, with the alternation/optional-group backtracking
of the concrete patterns spelled out.  Wall-clock timestamps and the
write-only debug log (`VIDEO_EXTRACTION_DEBUG_LOG`, `log_video_extraction_attempt`)
are not part of the modelled state; `print` calls are ignored.
-/

namespace SkoolX

abbrev Str := List Char

/-- Helper for `stripPfxQ`, recursing on the literal so that matching a
concrete literal against a partially-symbolic string reduces
definitionally. -/
def stripPfxL : Str → Str → Option Str
  | [], rest => some rest
  | _ :: _, [] => none
  | b :: t, a :: s' => if a = b then stripPfxL t s' else none

/-- `stripPfxQ s lit` returns `some rest` when `lit` is a prefix of `s`
(`rest` being what follows), and `none` otherwise. -/
def stripPfxQ (s lit : Str) : Option Str := stripPfxL lit s

/-- First-success alternation, written out so proofs can unfold it. -/
def oalt {α : Type} : Option α → Option α → Option α
  | some r, _ => some r
  | none, b => b

/-- Left-to-right regex-style search: try the position matcher `m` at every
position of the string (including the empty final position), returning the
first success.  This models Python `re.search` for the concrete patterns
used in the source. -/
def reSearch {α : Type} (m : Str → Option α) : Str → Option α
  | [] => m []
  | a :: t => oalt (m (a :: t)) (reSearch m t)

/-- Match exactly `n` characters satisfying `p` (models a `{n}` counted
character class in a regex). -/
def takeCount (p : Char → Bool) : Nat → Str → Option Str
  | 0, _ => some []
  | _ + 1, [] => none
  | n + 1, c :: t => if p c then (takeCount p n t).map (c :: ·) else none

/-- Greedy one-or-more character-class match (models `+` in a regex). -/
def takeGreedy1 (p : Char → Bool) (s : Str) : Option Str :=
  match s.takeWhile p with
  | [] => none
  | c :: t => some (c :: t)

/-- The `[a-zA-Z0-9_-]` character class used by the YouTube/Wistia patterns. -/
def isIdChar (c : Char) : Bool := c.isAlphanum || c = '_' || c = '-'

def isDigitCh (c : Char) : Bool := c.isDigit

def isAlnumCh (c : Char) : Bool := c.isAlphanum

/-- Python `str.lower()` (the URLs involved are ASCII). -/
def lowerStr (s : Str) : Str := s.map Char.toLower

/-- Python `lit in s` substring test. -/
def containsSub (lit : Str) : Str → Bool
  | [] => (stripPfxQ [] lit).isSome
  | a :: t => (stripPfxQ (a :: t) lit).isSome || containsSub lit t

/-- Python `s.endswith(sfx)`. -/
def endsWithSub (sfx s : Str) : Bool := (stripPfxQ s.reverse sfx.reverse).isSome

/-- Characters up to (excluding) the first occurrence of `x`; the whole
string when `x` does not occur.  Models `s.split(x)[0]`. -/
def takeUntilChar (x : Char) : Str → Str
  | [] => []
  | a :: t => if a = x then [] else a :: takeUntilChar x t

/-- Characters after the first occurrence of `x`; `[]` when `x` does not
occur. -/
def dropToAfterChar (x : Char) : Str → Str
  | [] => []
  | a :: t => if a = x then t else dropToAfterChar x t

/-- Split at the first occurrence of `x` (Python `s.split(x, 1)` when it
succeeds). -/
def splitAtCharQ (x : Char) : Str → Option (Str × Str)
  | [] => none
  | a :: t => if a = x then some ([], t) else (splitAtCharQ x t).map (fun p => (a :: p.1, p.2))

/-- Python `s.split(x)` (full split on a single separator character). -/
def splitChar (x : Char) : Str → List Str
  | [] => [[]]
  | a :: t =>
    if a = x then [] :: splitChar x t
    else
      match splitChar x t with
      | [] => [[a]]
      | f :: r => (a :: f) :: r

/-! ### urllib.parse.urlparse (the parts the source uses)

`urlsplit` strips an RFC-3986 scheme (first char alphabetic, remaining
scheme characters alphanumeric or `+`/`-`/`.`, terminated by `:`), then a
`//`-prefixed authority (up to the first `/`, `?` or `#`), then the
fragment (after the first `#`) and the query (after the first `?`). -/

def isSchemeChar (c : Char) : Bool := c.isAlphanum || c = '+' || c = '-' || c = '.'

def stripScheme (u : Str) : Str :=
  match splitAtCharQ ':' u with
  | some (pre, rest) =>
    match pre with
    | [] => u
    | c :: _ => if c.isAlpha && pre.all isSchemeChar then rest else u
  | none => u

/-- After the authority `//...`, the remainder starts at the first `/`, `?`
or `#` (CPython keeps that delimiter in the remainder). -/
def dropNetloc : Str → Str
  | [] => []
  | a :: t => if a = '/' || a = '?' || a = '#' then a :: t else dropNetloc t

def urlparsePath (u : Str) : Str :=
  let u1 := stripScheme u
  let u2 :=
    match stripPfxQ u1 "//".toList with
    | some rest => dropNetloc rest
    | none => u1
  takeUntilChar '?' (takeUntilChar '#' u2)

/-- `urlparse(u).query`: the part after the first `?` of the pre-fragment
portion (the scheme cannot contain `?` or `#`, so stripping it is
irrelevant here). -/
def urlQuery (u : Str) : Str := dropToAfterChar '?' (takeUntilChar '#' u)

/-! ### Percent decoding (urllib.parse.unquote / unquote_plus)

Byte-wise percent decoding; the inputs handled by the claims are ASCII, so
UTF-8 multi-byte sequences (where CPython differs from byte-wise decoding)
do not arise. -/

def hexVal (c : Char) : Option Nat :=
  if '0' ≤ c ∧ c ≤ '9' then some (c.toNat - '0'.toNat)
  else if 'a' ≤ c ∧ c ≤ 'f' then some (c.toNat - 'a'.toNat + 10)
  else if 'A' ≤ c ∧ c ≤ 'F' then some (c.toNat - 'A'.toNat + 10)
  else none

def unquoteL : Str → Str
  | [] => []
  | [c] => [c]
  | [c, d] => [c, d]
  | c :: a :: b :: r =>
    if c = '%' then
      match hexVal a, hexVal b with
      | some x, some y => Char.ofNat (16 * x + y) :: unquoteL r
      | _, _ => c :: unquoteL (a :: b :: r)
    else c :: unquoteL (a :: b :: r)

def unquotePlus (s : Str) : Str :=
  unquoteL (s.map (fun c => if c = '+' then ' ' else c))

/-! ## `_extract_video_id_generic` (skool_content_extractor.py:1580)

Patterns, tried in order exactly as in the source:
  YouTube `(?:youtube\.com/watch\?v=|youtu\.be/|youtube\.com/embed/)([a-zA-Z0-9_-]{11})`
  Vimeo   `vimeo\.com/(\d+)`
  Loom    `loom\.com/(?:share/|embed/)?([a-zA-Z0-9]+)`
  Wistia  `wistia\.com/(?:medias/)?([a-zA-Z0-9_-]+)`
then `file:` + lower-cased urlparse path if nonempty, else the lower-cased
URL itself. -/

def egidYtAt (s : Str) : Option Str :=
  oalt ((stripPfxQ s "youtube.com/watch?v=".toList).bind (takeCount isIdChar 11))
    (oalt ((stripPfxQ s "youtu.be/".toList).bind (takeCount isIdChar 11))
      ((stripPfxQ s "youtube.com/embed/".toList).bind (takeCount isIdChar 11)))

def vimeoAt (s : Str) : Option Str :=
  (stripPfxQ s "vimeo.com/".toList).bind (takeGreedy1 isDigitCh)

def loomEgidAt (s : Str) : Option Str :=
  (stripPfxQ s "loom.com/".toList).bind fun r =>
    oalt ((stripPfxQ r "share/".toList).bind (takeGreedy1 isAlnumCh))
      (oalt ((stripPfxQ r "embed/".toList).bind (takeGreedy1 isAlnumCh))
        (takeGreedy1 isAlnumCh r))

def wistiaEgidAt (s : Str) : Option Str :=
  (stripPfxQ s "wistia.com/".toList).bind fun r =>
    oalt ((stripPfxQ r "medias/".toList).bind (takeGreedy1 isIdChar))
      (takeGreedy1 isIdChar r)

def _extract_video_id_generic (u : Str) : Option Str :=
  if u = [] then none
  else
    match reSearch egidYtAt u with
    | some id => some ("yt:".toList ++ id)
    | none =>
      match reSearch vimeoAt u with
      | some id => some ("vimeo:".toList ++ id)
      | none =>
        match reSearch loomEgidAt u with
        | some id => some ("loom:".toList ++ id)
        | none =>
          match reSearch wistiaEgidAt u with
          | some id => some ("wistia:".toList ++ id)
          | none =>
            let p := urlparsePath u
            if p ≠ [] then some ("file:".toList ++ lowerStr p)
            else some (lowerStr u)

/-! ## `detect_platform` (skool_content_extractor.py:1611) -/

def detect_platform (video_url : Str) : Str :=
  if video_url = [] then "unknown".toList
  else
    let u := lowerStr video_url
    if containsSub "youtube.com".toList u || containsSub "youtu.be".toList u then "youtube".toList
    else if containsSub "vimeo.com".toList u then "vimeo".toList
    else if containsSub "loom.com".toList u then "loom".toList
    else if containsSub "wistia.com".toList u || containsSub "wistia.net".toList u
            || containsSub "fast.wistia.net".toList u then "wistia".toList
    else if [".mp4", ".webm", ".avi", ".mov"].any (fun e => containsSub e.toList u) then
      "direct".toList
    else "unknown".toList

/-! ## `is_valid_lesson_video` (skool_content_extractor.py:1523)

The gate tries six video-id patterns, each first on the full URL and then on
the URL stripped of query/fragment; the first pattern that matches decides
(blacklisted id => reject, otherwise accept), and if no pattern matches the
URL is allowed by default. -/

def CACHED_VIDEO_BLACKLIST : List Str :=
  ["YTrIwmIdaJI", "UDcrRdfB0x8", "7snrj0uEaDw", "65GvYDdzJWU"].map String.toList

/-- `(?:youtube\.com/watch\?v=|youtu\.be/)([a-zA-Z0-9_-]{11})` at one position. -/
def gate1At (s : Str) : Option Str :=
  oalt ((stripPfxQ s "youtube.com/watch?v=".toList).bind (takeCount isIdChar 11))
    ((stripPfxQ s "youtu.be/".toList).bind (takeCount isIdChar 11))

/-- `youtube\.com/embed/([a-zA-Z0-9_-]{11})` at one position. -/
def embedAt (s : Str) : Option Str :=
  (stripPfxQ s "youtube.com/embed/".toList).bind (takeCount isIdChar 11)

/-- `youtube\-nocookie\.com/(?:embed/)?([a-zA-Z0-9_-]{11})` at one position. -/
def gate3At (s : Str) : Option Str :=
  (stripPfxQ s "youtube-nocookie.com/".toList).bind fun r =>
    oalt ((stripPfxQ r "embed/".toList).bind (takeCount isIdChar 11))
      (takeCount isIdChar 11 r)

/-- `loom\.com/share/([a-zA-Z0-9_-]+)` at one position. -/
def gate5At (s : Str) : Option Str :=
  (stripPfxQ s "loom.com/share/".toList).bind (takeGreedy1 isIdChar)

/-- `wistia\.com/medias/([a-zA-Z0-9_-]+)` at one position. -/
def gate6At (s : Str) : Option Str :=
  (stripPfxQ s "wistia.com/medias/".toList).bind (takeGreedy1 isIdChar)

/-- `video_url.split('?')[0].split('#')[0]`. -/
def strippedUrl (u : Str) : Str := takeUntilChar '#' (takeUntilChar '?' u)

def gateIdSearch (u : Str) : Option Str :=
  oalt (oalt (reSearch gate1At u) (reSearch gate1At (strippedUrl u)))
    (oalt (oalt (reSearch embedAt u) (reSearch embedAt (strippedUrl u)))
      (oalt (oalt (reSearch gate3At u) (reSearch gate3At (strippedUrl u)))
        (oalt (oalt (reSearch vimeoAt u) (reSearch vimeoAt (strippedUrl u)))
          (oalt (oalt (reSearch gate5At u) (reSearch gate5At (strippedUrl u)))
            (oalt (reSearch gate6At u) (reSearch gate6At (strippedUrl u)))))))

def is_valid_lesson_video (video_url : Str) : Bool :=
  if video_url = [] then false
  else
    match gateIdSearch video_url with
    | some vid => decide (vid ∉ CACHED_VIDEO_BLACKLIST)
    | none => true

/-! ## `clean_video_url` (skool_content_extractor.py:1631) -/

/-- `[?&]v=([a-zA-Z0-9_-]{11})` at one position. -/
def watchAt (s : Str) : Option Str :=
  match s with
  | [] => none
  | c :: t =>
    if c = '?' ∨ c = '&' then (stripPfxQ t "v=".toList).bind (takeCount isIdChar 11) else none

/-- `youtu\.be/([a-zA-Z0-9_-]{11})` at one position. -/
def shortAt (s : Str) : Option Str :=
  (stripPfxQ s "youtu.be/".toList).bind (takeCount isIdChar 11)

/-- `(?:wistia\.com/medias/|fast\.wistia\.net/embed/iframe/)([a-zA-Z0-9_-]+)`. -/
def wistiaCleanAt (s : Str) : Option Str :=
  oalt ((stripPfxQ s "wistia.com/medias/".toList).bind (takeGreedy1 isIdChar))
    ((stripPfxQ s "fast.wistia.net/embed/iframe/".toList).bind (takeGreedy1 isIdChar))

/-- `parse_qs(query).get('url', [None])[0]` over the already-split fields:
skip empty fields, fields without `=`, and fields whose raw value is empty
(`keep_blank_values=False`); compare the unquoted name against `url` and
return the `unquote_plus`-decoded value of the first match. -/
def firstUrlValue : List Str → Option Str
  | [] => none
  | f :: r =>
    match splitAtCharQ '=' f with
    | some (n, v) =>
      if v ≠ [] ∧ unquotePlus n = "url".toList then some (unquotePlus v) else firstUrlValue r
    | none => firstUrlValue r

/-- The oEmbed handling of `clean_video_url`: `parse_qs(urlparse(u).query)`,
first `url` parameter, then a further `unquote`. -/
def getOembedWrapped (u : Str) : Option Str :=
  (firstUrlValue (splitChar '&' (urlQuery u))).map unquoteL

theorem unquoteL_length_le (s : Str) : (unquoteL s).length ≤ s.length := by
  induction s using unquoteL.induct with
  | case1 => simp [unquoteL]
  | case2 c => simp [unquoteL]
  | case3 c d => simp [unquoteL]
  | case4 a b r x y hy hx ih =>
    simp [unquoteL, hx, hy]
    omega
  | case5 a b r hno ih =>
    have hm : (match hexVal a, hexVal b with
        | some x, some y => Char.ofNat (16 * x + y) :: unquoteL r
        | _, _ => '%' :: unquoteL (a :: b :: r)) = '%' :: unquoteL (a :: b :: r) := by
      cases hx : hexVal a with
      | none => rfl
      | some x =>
        cases hy : hexVal b with
        | none => rfl
        | some y => exact absurd (hno x y hx hy) (fun f => f)
    simp [unquoteL, hm]
    simp at ih
    omega
  | case6 c a b r hc ih =>
    simp [unquoteL, hc]
    simp at ih
    omega

theorem unquotePlus_length_le (s : Str) : (unquotePlus s).length ≤ s.length := by
  simpa [unquotePlus] using unquoteL_length_le (s.map fun c => if c = '+' then ' ' else c)

theorem splitAtCharQ_length {x : Char} {s a b : Str} (h : splitAtCharQ x s = some (a, b)) :
    a.length + b.length + 1 = s.length := by
  induction s generalizing a b with
  | nil => simp [splitAtCharQ] at h
  | cons c t ih =>
    simp only [splitAtCharQ] at h
    split at h
    · rw [Option.some_inj] at h
      cases h
      simp
    · cases hs : splitAtCharQ x t with
      | none => rw [hs] at h; simp at h
      | some p =>
        obtain ⟨p1, p2⟩ := p
        rw [hs] at h
        simp only [Option.map_some', Option.some.injEq] at h
        injection h with h1 h2
        subst h1
        subst h2
        have hlen := ih (a := p1) (b := p2) hs
        simp only [List.length_cons]
        omega

theorem splitChar_mem_length {x : Char} {s f : Str} (h : f ∈ splitChar x s) :
    f.length ≤ s.length := by
  induction s generalizing f with
  | nil => simp [splitChar] at h; simp [h]
  | cons c t ih =>
    simp only [splitChar] at h
    split at h
    · rcases List.mem_cons.mp h with h | h
      · simp [h]
      · exact Nat.le_succ_of_le (ih h)
    · revert h
      split
      · intro h
        rcases List.mem_cons.mp h with h | h
        · simp [h]
        · simp at h
      · rename_i f0 r hsp
        intro h
        rcases List.mem_cons.mp h with h | h
        · subst h
          have : f0 ∈ splitChar x t := by rw [hsp]; exact List.mem_cons_self _ _
          simpa using Nat.succ_le_succ (ih this)
        · have : f ∈ splitChar x t := by rw [hsp]; exact List.mem_cons_of_mem _ h
          exact Nat.le_succ_of_le (ih this)

theorem firstUrlValue_length {fs : List Str} {v : Str} (h : firstUrlValue fs = some v) :
    ∃ f ∈ fs, v.length < f.length := by
  induction fs with
  | nil => simp [firstUrlValue] at h
  | cons f r ih =>
    simp only [firstUrlValue] at h
    split at h
    · split at h
      · rename_i n vr hsp hc
        simp only [Option.some.injEq] at h
        subst h
        refine ⟨f, List.mem_cons_self _ _, ?_⟩
        have h1 := splitAtCharQ_length hsp
        have h2 := unquotePlus_length_le vr
        omega
      · obtain ⟨f', hf', hl⟩ := ih h
        exact ⟨f', List.mem_cons_of_mem _ hf', hl⟩
    · obtain ⟨f', hf', hl⟩ := ih h
      exact ⟨f', List.mem_cons_of_mem _ hf', hl⟩

theorem takeUntilChar_length_le (x : Char) (s : Str) :
    (takeUntilChar x s).length ≤ s.length := by
  induction s with
  | nil => simp [takeUntilChar]
  | cons c t ih =>
    simp only [takeUntilChar]
    split
    · simp
    · simpa using Nat.succ_le_succ ih

theorem dropToAfterChar_length {x : Char} {s : Str} (h : dropToAfterChar x s ≠ []) :
    (dropToAfterChar x s).length < s.length := by
  induction s with
  | nil => simp [dropToAfterChar] at h
  | cons c t ih =>
    simp only [dropToAfterChar] at h ⊢
    split at h
    · rename_i hx
      rw [if_pos hx]
      simp
    · rename_i hne
      rw [if_neg hne]
      exact Nat.lt_succ_of_lt (ih h)

theorem getOembedWrapped_length {u w : Str} (h : getOembedWrapped u = some w) :
    w.length < u.length := by
  simp only [getOembedWrapped, Option.map_eq_some'] at h
  obtain ⟨v, hv, hw⟩ := h
  obtain ⟨f, hf, hlt⟩ := firstUrlValue_length hv
  have h1 : w.length ≤ v.length := by rw [← hw]; exact unquoteL_length_le v
  have h2 : f.length ≤ (urlQuery u).length := splitChar_mem_length hf
  have hq : urlQuery u ≠ [] := by
    intro hq
    rw [hq] at hf
    simp [splitChar] at hf
    rw [hf] at hlt
    simp at hlt
  have h3 : (urlQuery u).length < u.length := by
    have := dropToAfterChar_length (x := '?') (s := takeUntilChar '#' u) hq
    have h4 := takeUntilChar_length_le '#' u
    simp only [urlQuery] at *
    omega
  omega

/-- The non-oEmbed part of the YouTube branch of `clean_video_url`: the
embed, `[?&]v=` and `youtu.be` patterns in order; otherwise the URL is
returned unchanged. -/
def cleanYtRest (u : Str) : Str :=
  match reSearch embedAt u with
  | some id => "https://www.youtube.com/watch?v=".toList ++ id
  | none =>
    match reSearch watchAt u with
    | some id => "https://www.youtube.com/watch?v=".toList ++ id
    | none =>
      match reSearch shortAt u with
      | some id => "https://www.youtube.com/watch?v=".toList ++ id
      | none => u

/-- The YouTube branch of `clean_video_url`: oEmbed unwrap (recursing on the
wrapped URL), then `cleanYtRest`. -/
def cleanYoutube (u : Str) : Str :=
  if containsSub "youtube.com/oembed".toList u then
    match hw : getOembedWrapped u with
    | some w => cleanYoutube w
    | none => cleanYtRest u
  else cleanYtRest u
termination_by u.length
decreasing_by exact getOembedWrapped_length hw

def clean_video_url (video_url : Str) (platform : Str) : Str :=
  if video_url = [] then video_url
  else if platform = "youtube".toList then cleanYoutube video_url
  else if platform = "vimeo".toList then
    match reSearch vimeoAt video_url with
    | some id => "https://vimeo.com/".toList ++ id
    | none => video_url
  else if platform = "loom".toList then
    match reSearch loomEgidAt video_url with
    | some id => "https://www.loom.com/share/".toList ++ id
    | none => video_url
  else if platform = "wistia".toList then
    match reSearch wistiaCleanAt video_url with
    | some id => "https://fast.wistia.net/embed/iframe/".toList ++ id
    | none => video_url
  else video_url

/-! ## Network-log inspection (skool_content_extractor.py:3375)

The Chrome-performance-log JSON decoding is I/O; the model's input is the
list of request/response URL strings pulled from the log entries.  The
`source` diagnostic field of the returned dict is not modelled. -/

structure VideoData where
  url : Str
  platform : Str
deriving DecidableEq

def imageExts : List Str :=
  [".jpg", ".jpeg", ".png", ".gif", ".webp", ".svg"].map String.toList

def _is_probable_video_url (url : Str) : Bool :=
  let u := lowerStr url
  if imageExts.any (fun e => endsWithSub e u) then false
  else if ([".m3u8", ".mp4", ".webm", ".mov"].map String.toList).any (fun e => containsSub e u) then
    true
  else if containsSub "youtube.com".toList u || containsSub "youtu.be".toList u
      || containsSub "vimeo.com".toList u || containsSub "loom.com".toList u
      || containsSub "fast.wistia.net/embed/iframe/".toList u
      || containsSub "wistia.com/medias/".toList u
      || containsSub "oembed?format=json&url=".toList u then true
  else if containsSub "wistia".toList u && containsSub "deliveries".toList u then false
  else false

/-- Sort key of the candidate prioritization (Python tuple of two bools,
checked on the raw URL). -/
def netKey (u : Str) : Bool × Bool :=
  (containsSub "oembed".toList u,
   !(containsSub "m3u8".toList u) && !(containsSub ".mp4".toList u))

def keyLtB : Bool × Bool → Bool × Bool → Bool
  | (a1, a2), (b1, b2) => (!a1 && b1) || (a1 == b1 && (!a2 && b2))

/-- `sorted(candidates, key=netKey)[0]`: by stability this is the earliest
candidate with the lexicographically least key. -/
def minByKey : Str → List Str → Str
  | best, [] => best
  | best, u :: rest => if keyLtB (netKey u) (netKey best) then minByKey u rest else minByKey best rest

def _extract_video_from_network_logs (logUrls : List Str) : Option VideoData :=
  let candidates := logUrls.filter (fun u => u ≠ [] && _is_probable_video_url u)
  match candidates with
  | [] => none
  | c :: rest =>
    let best := minByKey c rest
    let platform := detect_platform best
    some ⟨clean_video_url best platform, platform⟩

/-! ### Generic scanner lemmas -/

theorem stripPfxQ_length {s lit r : Str} (h : stripPfxQ s lit = some r) :
    s.length = lit.length + r.length := by
  induction lit generalizing s r with
  | nil =>
    simp only [stripPfxQ, stripPfxL, Option.some_inj] at h
    simp [← h]
  | cons b t ih =>
    cases s with
    | nil => simp [stripPfxQ, stripPfxL] at h
    | cons a s' =>
      simp only [stripPfxQ, stripPfxL] at h
      split at h
      · have := ih h
        simp only [List.length_cons]
        omega
      · simp at h

theorem stripPfxQ_isSome_length {s lit : Str} (h : (stripPfxQ s lit).isSome = true) :
    lit.length ≤ s.length := by
  cases hs : stripPfxQ s lit with
  | none => rw [hs] at h; simp at h
  | some r => have := stripPfxQ_length hs; omega

theorem takeCount_minlen {p : Char → Bool} {n : Nat} {s l : Str}
    (h : takeCount p n s = some l) : n ≤ s.length := by
  induction n generalizing s l with
  | zero => omega
  | succ m ih =>
    cases s with
    | nil => simp [takeCount] at h
    | cons c t =>
      simp only [takeCount] at h
      split at h
      · cases ht : takeCount p m t with
        | none => rw [ht] at h; simp at h
        | some l' =>
          have := ih ht
          simp only [List.length_cons]
          omega
      · simp at h

theorem takeCount_inv {p : Char → Bool} {n : Nat} {s l : Str}
    (h : takeCount p n s = some l) : l.length = n ∧ ∀ c ∈ l, p c = true := by
  induction n generalizing s l with
  | zero =>
    simp only [takeCount, Option.some_inj] at h
    simp [← h]
  | succ m ih =>
    cases s with
    | nil => simp [takeCount] at h
    | cons c t =>
      simp only [takeCount] at h
      split at h
      · cases ht : takeCount p m t with
        | none => rw [ht] at h; simp at h
        | some l' =>
          rw [ht] at h
          simp only [Option.map_some', Option.some_inj] at h
          obtain ⟨hlen, hall⟩ := ih ht
          subst h
          refine ⟨by simp [hlen], ?_⟩
          intro x hx
          rcases List.mem_cons.mp hx with hx | hx
          · subst hx; assumption
          · exact hall x hx
      · simp at h

theorem takeCount_exact {p : Char → Bool} {l : Str} (r : Str)
    (hall : ∀ c ∈ l, p c = true) : takeCount p l.length (l ++ r) = some l := by
  induction l with
  | nil => simp [takeCount]
  | cons c t ih =>
    simp only [List.length_cons, List.cons_append, takeCount]
    rw [if_pos (hall c (List.mem_cons_self _ _))]
    have h2 := ih (fun x hx => hall x (List.mem_cons_of_mem _ hx))
    simp only [List.append_eq]
    rw [h2]
    rfl

theorem takeCount_exact_nil {p : Char → Bool} {l : Str}
    (hall : ∀ c ∈ l, p c = true) : takeCount p l.length l = some l := by
  have := takeCount_exact (p := p) (l := l) [] hall
  simpa using this

theorem mem_takeWhileL {p : Char → Bool} {l : Str} {c : Char}
    (h : c ∈ l.takeWhile p) : p c = true := by
  induction l with
  | nil => simp [List.takeWhile] at h
  | cons a t ih =>
    simp only [List.takeWhile] at h
    split at h
    · rcases List.mem_cons.mp h with h | h
      · subst h; assumption
      · exact ih h
    · simp at h

theorem takeWhileL_eq_self {p : Char → Bool} {l : Str}
    (hall : ∀ c ∈ l, p c = true) : l.takeWhile p = l := by
  induction l with
  | nil => rfl
  | cons a t ih =>
    have h1 : p a = true := hall a (List.mem_cons_self _ _)
    simp [List.takeWhile_cons, h1, ih (fun x hx => hall x (List.mem_cons_of_mem _ hx))]

theorem takeGreedy1_inv {p : Char → Bool} {s m : Str} (h : takeGreedy1 p s = some m) :
    m ≠ [] ∧ ∀ c ∈ m, p c = true := by
  simp only [takeGreedy1] at h
  split at h
  · simp at h
  · rename_i c t heq
    rw [Option.some_inj] at h
    subst h
    exact ⟨by simp, fun x hx => mem_takeWhileL (heq ▸ hx)⟩

theorem takeGreedy1_all {p : Char → Bool} {l : Str} (hne : l ≠ [])
    (hall : ∀ c ∈ l, p c = true) : takeGreedy1 p l = some l := by
  simp only [takeGreedy1, takeWhileL_eq_self hall]
  cases l with
  | nil => exact absurd rfl hne
  | cons c t => rfl

theorem reSearch_some_inv {α : Type} {m : Str → Option α} {u : Str} {r : α}
    (h : reSearch m u = some r) : ∃ s : Str, m s = some r := by
  induction u with
  | nil => exact ⟨[], h⟩
  | cons a t ih =>
    simp only [reSearch] at h
    cases hm : m (a :: t) with
    | some x =>
      rw [hm] at h
      simp only [oalt, Option.some_inj] at h
      subst h
      exact ⟨a :: t, hm⟩
    | none =>
      rw [hm] at h
      simp only [oalt] at h
      exact ih h

theorem reSearch_short {α : Type} {m : Str → Option α} {L : Nat}
    (hm : ∀ s r, m s = some r → L ≤ s.length) :
    ∀ s : Str, s.length < L → reSearch m s = none := by
  intro s
  induction s with
  | nil =>
    intro hlen
    cases hr : m [] with
    | none => simpa [reSearch] using hr
    | some r => have h2 := hm [] r hr; simp at hlen h2; omega
  | cons a t ih =>
    intro hlen
    simp only [reSearch]
    cases hr : m (a :: t) with
    | none =>
      simp only [oalt]
      exact ih (by simp at hlen ⊢; omega)
    | some r =>
      have h2 := hm _ _ hr
      simp only [List.length_cons] at hlen h2
      omega

theorem containsSub_short {lit s : Str} (h : s.length < lit.length) :
    containsSub lit s = false := by
  induction s with
  | nil =>
    simp only [containsSub]
    cases hs : stripPfxQ [] lit with
    | none => simp
    | some r =>
      have := stripPfxQ_length hs
      simp at this h
      omega
  | cons a t ih =>
    simp only [containsSub, Bool.or_eq_false_iff]
    constructor
    · cases hs : stripPfxQ (a :: t) lit with
      | none => simp
      | some r =>
        have h2 := stripPfxQ_length hs
        simp only [List.length_cons] at h h2
        omega
    · exact ih (by simp only [List.length_cons] at h; omega)

/-- `idOk id` states that `id` is an 11-character `[a-zA-Z0-9_-]` YouTube
video id. -/
def idOk (id : Str) : Prop := id.length = 11 ∧ ∀ c ∈ id, isIdChar c = true

theorem idChar_ne {c x : Char} (hc : isIdChar c = true) (hx : isIdChar x = false) : c ≠ x := by
  intro he
  subst he
  rw [hc] at hx
  cases hx

/-! ### Minimum match lengths of the position matchers -/

/-- A literal-then-`takeCount` matcher needs at least `lit.length + n`
characters. -/
theorem litCount_minlen {lit : Str} {n : Nat} {s r : Str}
    (h : (stripPfxQ s lit).bind (takeCount isIdChar n) = some r) :
    lit.length + n ≤ s.length := by
  cases hs : stripPfxQ s lit with
  | none => rw [hs] at h; simp at h
  | some rest =>
    rw [hs] at h
    have h1 := stripPfxQ_length hs
    have h2 := takeCount_minlen (p := isIdChar) (n := n) (s := rest) (l := r) h
    omega

theorem embedAt_minlen : ∀ (s : Str) (r : Str), embedAt s = some r → 29 ≤ s.length := by
  intro s r h
  have h1 := @litCount_minlen ("youtube.com/embed/".toList) 11 s r h
  have h2 : ("youtube.com/embed/".toList).length = 18 := rfl
  omega

theorem watchAt_minlen : ∀ (s : Str) (r : Str), watchAt s = some r → 14 ≤ s.length := by
  intro s r h
  cases s with
  | nil => simp [watchAt] at h
  | cons c t =>
    simp only [watchAt] at h
    split at h
    · have h1 := @litCount_minlen ("v=".toList) 11 t r h
      have h2 : ("v=".toList).length = 2 := rfl
      simp only [List.length_cons]
      omega
    · simp at h

theorem shortAt_minlen : ∀ (s : Str) (r : Str), shortAt s = some r → 20 ≤ s.length := by
  intro s r h
  have h1 := @litCount_minlen ("youtu.be/".toList) 11 s r h
  have h2 : ("youtu.be/".toList).length = 9 := rfl
  omega

theorem egidYtAt_minlen : ∀ (s : Str) (r : Str), egidYtAt s = some r → 20 ≤ s.length := by
  intro s r h
  simp only [egidYtAt] at h
  cases h1 : (stripPfxQ s "youtube.com/watch?v=".toList).bind (takeCount isIdChar 11) with
  | some ro =>
    have ha := litCount_minlen h1
    have hb : ("youtube.com/watch?v=".toList).length = 20 := rfl
    omega
  | none =>
    rw [h1] at h
    simp only [oalt] at h
    cases h2 : (stripPfxQ s "youtu.be/".toList).bind (takeCount isIdChar 11) with
    | some ro =>
      have ha := litCount_minlen h2
      have hb : ("youtu.be/".toList).length = 9 := rfl
      omega
    | none =>
      rw [h2] at h
      simp only [oalt] at h
      have ha := litCount_minlen h
      have hb : ("youtube.com/embed/".toList).length = 18 := rfl
      omega

/-! ### Character-class side conditions -/

theorem takeUntilChar_eq_self {x : Char} {l : Str} (h : ∀ c ∈ l, c ≠ x) :
    takeUntilChar x l = l := by
  induction l with
  | nil => rfl
  | cons a t ih =>
    simp only [takeUntilChar]
    rw [if_neg (h a (List.mem_cons_self _ _)), ih (fun c hc => h c (List.mem_cons_of_mem _ hc))]

theorem splitChar_no_sep {x : Char} {l : Str} (h : ∀ c ∈ l, c ≠ x) :
    splitChar x l = [l] := by
  induction l with
  | nil => rfl
  | cons a t ih =>
    simp only [splitChar]
    rw [if_neg (h a (List.mem_cons_self _ _)), ih (fun c hc => h c (List.mem_cons_of_mem _ hc))]

theorem splitChar_sep_append {x : Char} {p : Str} (s : Str) (h : ∀ c ∈ p, c ≠ x) :
    splitChar x (p ++ x :: s) = p :: splitChar x s := by
  induction p with
  | nil => simp [splitChar]
  | cons a t ih =>
    simp only [List.cons_append, splitChar, List.append_eq]
    rw [if_neg (h a (List.mem_cons_self _ _)), ih (fun c hc => h c (List.mem_cons_of_mem _ hc))]

theorem map_plus_id {l : Str} (h : ∀ c ∈ l, c ≠ '+') :
    l.map (fun c => if c = '+' then ' ' else c) = l := by
  induction l with
  | nil => rfl
  | cons a t ih =>
    simp only [List.map_cons]
    rw [if_neg (h a (List.mem_cons_self _ _)), ih (fun c hc => h c (List.mem_cons_of_mem _ hc))]

theorem unquoteL_no_pct {l : Str} (h : ∀ c ∈ l, c ≠ '%') : unquoteL l = l := by
  induction l using unquoteL.induct with
  | case1 => rfl
  | case2 c => rfl
  | case3 c d => rfl
  | case4 a b r x y hy hx ih =>
    exact absurd rfl (h '%' (List.mem_cons_self _ _))
  | case5 a b r hno ih =>
    exact absurd rfl (h '%' (List.mem_cons_self _ _))
  | case6 c a b r hc ih =>
    simp only [unquoteL, if_neg hc]
    rw [ih (fun x hx => h x (List.mem_cons_of_mem _ hx))]

/-! ### Partial-evaluation equations for the concrete URL shapes

Each of the following is definitional: the scanner walks the concrete
prefix and either fires at the known position (leaving the class match on
the symbolic remainder) or passes through to the remainder. -/

theorem scanWatch_pfxWatch (s : Str) :
    reSearch watchAt ("https://www.youtube.com/watch?v=".toList ++ s)
      = oalt (takeCount isIdChar 11 s) (reSearch watchAt ('v' :: '=' :: s)) := rfl

theorem scanEmbed_pfxWatch (s : Str) :
    reSearch embedAt ("https://www.youtube.com/watch?v=".toList ++ s) = reSearch embedAt s := rfl

theorem scanOembed_pfxWatch (s : Str) :
    containsSub "youtube.com/oembed".toList ("https://www.youtube.com/watch?v=".toList ++ s)
      = containsSub "youtube.com/oembed".toList s := rfl

theorem scanYt_pfxWatch (s : Str) :
    reSearch egidYtAt ("https://www.youtube.com/watch?v=".toList ++ s)
      = oalt (oalt (takeCount isIdChar 11 s) none)
          (reSearch egidYtAt ("outube.com/watch?v=".toList ++ s)) := rfl

theorem scanEmbed_pfxEmbed (s : Str) :
    reSearch embedAt ("https://www.youtube.com/embed/".toList ++ s)
      = oalt (takeCount isIdChar 11 s) (reSearch embedAt ("outube.com/embed/".toList ++ s)) := rfl

theorem scanOembed_pfxEmbed (s : Str) :
    containsSub "youtube.com/oembed".toList ("https://www.youtube.com/embed/".toList ++ s)
      = containsSub "youtube.com/oembed".toList s := rfl

theorem scanYt_pfxEmbed (s : Str) :
    reSearch egidYtAt ("https://www.youtube.com/embed/".toList ++ s)
      = oalt (takeCount isIdChar 11 s) (reSearch egidYtAt ("outube.com/embed/".toList ++ s)) := rfl

theorem scanShort_pfxShort (s : Str) :
    reSearch shortAt ("https://youtu.be/".toList ++ s)
      = oalt (takeCount isIdChar 11 s) (reSearch shortAt ("outu.be/".toList ++ s)) := rfl

theorem scanEmbed_pfxShort (s : Str) :
    reSearch embedAt ("https://youtu.be/".toList ++ s) = reSearch embedAt s := rfl

theorem scanWatch_pfxShort (s : Str) :
    reSearch watchAt ("https://youtu.be/".toList ++ s) = reSearch watchAt s := rfl

theorem scanOembed_pfxShort (s : Str) :
    containsSub "youtube.com/oembed".toList ("https://youtu.be/".toList ++ s)
      = containsSub "youtube.com/oembed".toList s := rfl

theorem scanYt_pfxShort (s : Str) :
    reSearch egidYtAt ("https://youtu.be/".toList ++ s)
      = oalt (oalt (takeCount isIdChar 11 s) none)
          (reSearch egidYtAt ("outu.be/".toList ++ s)) := rfl

theorem scanVimeo_canon (s : Str) :
    reSearch vimeoAt ("https://vimeo.com/".toList ++ s)
      = oalt (takeGreedy1 isDigitCh s) (reSearch vimeoAt ("imeo.com/".toList ++ s)) := rfl

theorem scanLoom_canon (s : Str) :
    reSearch loomEgidAt ("https://www.loom.com/share/".toList ++ s)
      = oalt (oalt (takeGreedy1 isAlnumCh s) (some "share".toList))
          (reSearch loomEgidAt ("oom.com/share/".toList ++ s)) := rfl

theorem scanWistia_canon (s : Str) :
    reSearch wistiaCleanAt ("https://fast.wistia.net/embed/iframe/".toList ++ s)
      = oalt (takeGreedy1 isIdChar s)
          (reSearch wistiaCleanAt ("ast.wistia.net/embed/iframe/".toList ++ s)) := rfl

/-! ### Id-class facts -/

theorem takeCount11_of_idOk {id : Str} (r : Str) (h : idOk id) :
    takeCount isIdChar 11 (id ++ r) = some id := by
  have h2 := takeCount_exact (p := isIdChar) (l := id) r h.2
  rwa [h.1] at h2

theorem takeCount11_of_idOk_nil {id : Str} (h : idOk id) :
    takeCount isIdChar 11 id = some id := by
  have h2 := takeCount11_of_idOk [] h
  simpa using h2

theorem idOk_of_takeCount {s l : Str} (h : takeCount isIdChar 11 s = some l) : idOk l :=
  ⟨(takeCount_inv h).1, (takeCount_inv h).2⟩

theorem idOk_of_litCount {lit s l : Str}
    (h : (stripPfxQ s lit).bind (takeCount isIdChar 11) = some l) : idOk l := by
  cases hp : stripPfxQ s lit with
  | none => rw [hp] at h; simp at h
  | some rest => rw [hp] at h; exact idOk_of_takeCount h

theorem embed_some_idOk {u id : Str} (h : reSearch embedAt u = some id) : idOk id := by
  obtain ⟨s, hs⟩ := reSearch_some_inv h
  exact idOk_of_litCount hs

theorem short_some_idOk {u id : Str} (h : reSearch shortAt u = some id) : idOk id := by
  obtain ⟨s, hs⟩ := reSearch_some_inv h
  exact idOk_of_litCount hs

theorem watch_some_idOk {u id : Str} (h : reSearch watchAt u = some id) : idOk id := by
  obtain ⟨s, hs⟩ := reSearch_some_inv h
  cases s with
  | nil => simp [watchAt] at hs
  | cons c t =>
    simp only [watchAt] at hs
    split at hs
    · exact idOk_of_litCount hs
    · simp at hs

theorem egidYt_some_idOk {u id : Str} (h : reSearch egidYtAt u = some id) : idOk id := by
  obtain ⟨s, hs⟩ := reSearch_some_inv h
  simp only [egidYtAt] at hs
  cases h1 : (stripPfxQ s "youtube.com/watch?v=".toList).bind (takeCount isIdChar 11) with
  | some x =>
    rw [h1] at hs
    simp only [oalt, Option.some_inj] at hs
    subst hs
    exact idOk_of_litCount h1
  | none =>
    rw [h1] at hs
    simp only [oalt] at hs
    cases h2 : (stripPfxQ s "youtu.be/".toList).bind (takeCount isIdChar 11) with
    | some x =>
      rw [h2] at hs
      simp only [oalt, Option.some_inj] at hs
      subst hs
      exact idOk_of_litCount h2
    | none =>
      rw [h2] at hs
      simp only [oalt] at hs
      exact idOk_of_litCount hs

theorem idOk_ne_char {id : Str} (h : idOk id) {x : Char} (hx : isIdChar x = false) :
    ∀ c ∈ id, c ≠ x := fun c hc => idChar_ne (h.2 c hc) hx

/-! ### The canonical YouTube watch URL is a fixed point of `cleanYoutube` -/

theorem cleanYoutube_of_not_oembed {u : Str}
    (h : containsSub "youtube.com/oembed".toList u = false) :
    cleanYoutube u = cleanYtRest u := by
  have h' : ¬ containsSub "youtube.com/oembed".toList u = true := by
    intro ht
    rw [h] at ht
    cases ht
  rw [cleanYoutube, if_neg h']

theorem cleanYoutube_oembed_some {u w : Str}
    (h : containsSub "youtube.com/oembed".toList u = true)
    (hw : getOembedWrapped u = some w) :
    cleanYoutube u = cleanYoutube w := by
  rw [cleanYoutube, if_pos h]
  split
  · rename_i w2 hw2
    rw [hw] at hw2
    injection hw2 with h3
    rw [h3]
  · rename_i hw2
    rw [hw] at hw2
    exact (Option.some_ne_none _ hw2).elim

theorem cleanYoutube_oembed_none {u : Str}
    (h : containsSub "youtube.com/oembed".toList u = true)
    (hw : getOembedWrapped u = none) :
    cleanYoutube u = cleanYtRest u := by
  rw [cleanYoutube, if_pos h]
  split
  · rename_i w2 hw2
    rw [hw] at hw2
    exact (Option.some_ne_none _ hw2.symm).elim
  · rfl

theorem cleanYoutube_canonWatch {id : Str} (h : idOk id) :
    cleanYoutube ("https://www.youtube.com/watch?v=".toList ++ id)
      = "https://www.youtube.com/watch?v=".toList ++ id := by
  have hco : containsSub "youtube.com/oembed".toList
      ("https://www.youtube.com/watch?v=".toList ++ id) = false := by
    rw [scanOembed_pfxWatch]
    exact containsSub_short (by rw [h.1]; decide)
  have hemb : reSearch embedAt ("https://www.youtube.com/watch?v=".toList ++ id) = none := by
    rw [scanEmbed_pfxWatch]
    exact reSearch_short embedAt_minlen _ (by rw [h.1]; decide)
  have hwatch : reSearch watchAt ("https://www.youtube.com/watch?v=".toList ++ id) = some id := by
    rw [scanWatch_pfxWatch, takeCount11_of_idOk_nil h]
    rfl
  rw [cleanYoutube_of_not_oembed hco]
  simp only [cleanYtRest, hemb, hwatch]

/-! ### Idempotence of `cleanYoutube` and `clean_video_url` (C7) -/

theorem cleanYoutube_cleanYtRest_fix (u : Str) (hself : cleanYoutube u = cleanYtRest u) :
    cleanYoutube (cleanYtRest u) = cleanYtRest u := by
  cases he : reSearch embedAt u with
  | some id =>
    have hr : cleanYtRest u = "https://www.youtube.com/watch?v=".toList ++ id := by
      simp [cleanYtRest, he]
    rw [hr]
    exact cleanYoutube_canonWatch (embed_some_idOk he)
  | none =>
    cases hwt : reSearch watchAt u with
    | some id =>
      have hr : cleanYtRest u = "https://www.youtube.com/watch?v=".toList ++ id := by
        simp [cleanYtRest, he, hwt]
      rw [hr]
      exact cleanYoutube_canonWatch (watch_some_idOk hwt)
    | none =>
      cases hsh : reSearch shortAt u with
      | some id =>
        have hr : cleanYtRest u = "https://www.youtube.com/watch?v=".toList ++ id := by
          simp [cleanYtRest, he, hwt, hsh]
        rw [hr]
        exact cleanYoutube_canonWatch (short_some_idOk hsh)
      | none =>
        have hr : cleanYtRest u = u := by simp [cleanYtRest, he, hwt, hsh]
        rw [hr, hself, hr]

theorem cleanYoutube_idem (u : Str) : cleanYoutube (cleanYoutube u) = cleanYoutube u := by
  have H : ∀ n, ∀ v : Str, v.length = n → cleanYoutube (cleanYoutube v) = cleanYoutube v := by
    intro n
    induction n using Nat.strong_induction_on with
    | _ n ih =>
      intro v hv
      by_cases hco : containsSub "youtube.com/oembed".toList v = true
      · cases hw : getOembedWrapped v with
        | some w =>
          rw [cleanYoutube_oembed_some hco hw]
          exact ih w.length (hv ▸ getOembedWrapped_length hw) w rfl
        | none =>
          rw [cleanYoutube_oembed_none hco hw]
          exact cleanYoutube_cleanYtRest_fix v (cleanYoutube_oembed_none hco hw)
      · rw [Bool.not_eq_true] at hco
        rw [cleanYoutube_of_not_oembed hco]
        exact cleanYoutube_cleanYtRest_fix v (cleanYoutube_of_not_oembed hco)
  exact H u.length u rfl

/-! Unfolding equations of `clean_video_url` per platform tag. -/

theorem clean_unfold_youtube {u : Str} (hu : u ≠ []) :
    clean_video_url u "youtube".toList = cleanYoutube u := by
  simp only [clean_video_url, if_neg hu]
  rfl

theorem clean_unfold_vimeo {u : Str} (hu : u ≠ []) :
    clean_video_url u "vimeo".toList =
      match reSearch vimeoAt u with
      | some id => "https://vimeo.com/".toList ++ id
      | none => u := by
  simp only [clean_video_url, if_neg hu]
  rfl

theorem clean_unfold_loom {u : Str} (hu : u ≠ []) :
    clean_video_url u "loom".toList =
      match reSearch loomEgidAt u with
      | some id => "https://www.loom.com/share/".toList ++ id
      | none => u := by
  simp only [clean_video_url, if_neg hu]
  rfl

theorem clean_unfold_wistia {u : Str} (hu : u ≠ []) :
    clean_video_url u "wistia".toList =
      match reSearch wistiaCleanAt u with
      | some id => "https://fast.wistia.net/embed/iframe/".toList ++ id
      | none => u := by
  simp only [clean_video_url, if_neg hu]
  rfl

theorem clean_unfold_other {u p : Str} (hu : u ≠ []) (h1 : p ≠ "youtube".toList)
    (h2 : p ≠ "vimeo".toList) (h3 : p ≠ "loom".toList) (h4 : p ≠ "wistia".toList) :
    clean_video_url u p = u := by
  simp only [clean_video_url, if_neg hu]
  rw [if_neg h1, if_neg h2, if_neg h3, if_neg h4]

theorem loom_some_inv {u d : Str} (hm : reSearch loomEgidAt u = some d) :
    d ≠ [] ∧ ∀ c ∈ d, isAlnumCh c = true := by
  obtain ⟨s, hs⟩ := reSearch_some_inv hm
  simp only [loomEgidAt] at hs
  cases hp : stripPfxQ s "loom.com/".toList with
  | none => rw [hp] at hs; simp at hs
  | some rest =>
    rw [hp] at hs
    simp only [Option.some_bind] at hs
    cases h2 : (stripPfxQ rest "share/".toList).bind (takeGreedy1 isAlnumCh) with
    | some x =>
      rw [h2] at hs
      simp only [oalt, Option.some_inj] at hs
      subst hs
      cases hq : stripPfxQ rest "share/".toList with
      | none => rw [hq] at h2; simp at h2
      | some rest2 => rw [hq] at h2; exact takeGreedy1_inv h2
    | none =>
      rw [h2] at hs
      simp only [oalt] at hs
      cases h3 : (stripPfxQ rest "embed/".toList).bind (takeGreedy1 isAlnumCh) with
      | some x =>
        rw [h3] at hs
        simp only [oalt, Option.some_inj] at hs
        subst hs
        cases hq : stripPfxQ rest "embed/".toList with
        | none => rw [hq] at h3; simp at h3
        | some rest2 => rw [hq] at h3; exact takeGreedy1_inv h3
      | none =>
        rw [h3] at hs
        simp only [oalt] at hs
        exact takeGreedy1_inv hs

theorem wistia_some_inv {u d : Str} (hm : reSearch wistiaCleanAt u = some d) :
    d ≠ [] ∧ ∀ c ∈ d, isIdChar c = true := by
  obtain ⟨s, hs⟩ := reSearch_some_inv hm
  simp only [wistiaCleanAt] at hs
  cases h2 : (stripPfxQ s "wistia.com/medias/".toList).bind (takeGreedy1 isIdChar) with
  | some x =>
    rw [h2] at hs
    simp only [oalt, Option.some_inj] at hs
    subst hs
    cases hq : stripPfxQ s "wistia.com/medias/".toList with
    | none => rw [hq] at h2; simp at h2
    | some rest2 => rw [hq] at h2; exact takeGreedy1_inv h2
  | none =>
    rw [h2] at hs
    simp only [oalt] at hs
    cases hq : stripPfxQ s "fast.wistia.net/embed/iframe/".toList with
    | none => rw [hq] at hs; simp at hs
    | some rest2 => rw [hq] at hs; exact takeGreedy1_inv hs

theorem vimeo_some_inv {u d : Str} (hm : reSearch vimeoAt u = some d) :
    d ≠ [] ∧ ∀ c ∈ d, isDigitCh c = true := by
  obtain ⟨s, hs⟩ := reSearch_some_inv hm
  simp only [vimeoAt] at hs
  cases hp : stripPfxQ s "vimeo.com/".toList with
  | none => rw [hp] at hs; simp at hs
  | some rest => rw [hp] at hs; exact takeGreedy1_inv hs

/-- C7: canonicalization idempotence.  For every URL string and every
platform tag, applying `clean_video_url` a second time is a no-op:
`clean_video_url (clean_video_url u p) p = clean_video_url u p`. -/
theorem clean_video_url_idempotent (u p : Str) :
    clean_video_url (clean_video_url u p) p = clean_video_url u p := by
  by_cases hu : u = []
  · subst hu
    simp [clean_video_url]
  · by_cases hyt : p = "youtube".toList
    · subst hyt
      rw [clean_unfold_youtube hu]
      by_cases h0 : cleanYoutube u = []
      · rw [h0]
        simp [clean_video_url]
      · rw [clean_unfold_youtube h0, cleanYoutube_idem]
    · by_cases hv : p = "vimeo".toList
      · subst hv
        rw [clean_unfold_vimeo hu]
        cases hm : reSearch vimeoAt u with
        | none => rw [clean_unfold_vimeo hu, hm]
        | some d =>
          obtain ⟨hdne, hdall⟩ := vimeo_some_inv hm
          have hne2 : ("https://vimeo.com/".toList ++ d) ≠ [] := by
            simp [List.append_eq_nil]
          rw [clean_unfold_vimeo hne2, scanVimeo_canon, takeGreedy1_all hdne hdall]
          rfl
      · by_cases hl : p = "loom".toList
        · subst hl
          rw [clean_unfold_loom hu]
          cases hm : reSearch loomEgidAt u with
          | none => rw [clean_unfold_loom hu, hm]
          | some d =>
            obtain ⟨hdne, hdall⟩ := loom_some_inv hm
            have hne2 : ("https://www.loom.com/share/".toList ++ d) ≠ [] := by
              simp [List.append_eq_nil]
            rw [clean_unfold_loom hne2, scanLoom_canon, takeGreedy1_all hdne hdall]
            rfl
        · by_cases hw : p = "wistia".toList
          · subst hw
            rw [clean_unfold_wistia hu]
            cases hm : reSearch wistiaCleanAt u with
            | none => rw [clean_unfold_wistia hu, hm]
            | some d =>
              obtain ⟨hdne, hdall⟩ := wistia_some_inv hm
              have hne2 : ("https://fast.wistia.net/embed/iframe/".toList ++ d) ≠ [] := by
                simp [List.append_eq_nil]
              rw [clean_unfold_wistia hne2, scanWistia_canon, takeGreedy1_all hdne hdall]
              rfl
          · rw [clean_unfold_other hu hyt hv hl hw, clean_unfold_other hu hyt hv hl hw]

/-! ### C6: YouTube canonicalization coverage -/

theorem append_str_ne_nil (a : String) (y : Str) (hne : a.toList.length ≠ 0) :
    a.toList ++ y ≠ [] := by
  intro he
  have h2 := congrArg List.length he
  simp only [List.length_append, List.length_nil] at h2
  omega

theorem getOembed_oembedForm {id : Str} (h : idOk id) :
    getOembedWrapped
        ("https://www.youtube.com/oembed?format=json&url=https%3A%2F%2Fwww.youtube.com%2Fwatch%3Fv%3D".toList ++ id)
      = some ("https://www.youtube.com/watch?v=".toList ++ id) := by
  have hnoAmp : ∀ c ∈ ("url=https%3A%2F%2Fwww.youtube.com%2Fwatch%3Fv%3D".toList ++ id), c ≠ '&' := by
    intro c hc
    rcases List.mem_append.mp hc with hc | hc
    · have hstat : ∀ c ∈ "url=https%3A%2F%2Fwww.youtube.com%2Fwatch%3Fv%3D".toList, c ≠ '&' := by decide
      exact hstat c hc
    · exact idOk_ne_char h (by decide) c hc
  have hq : urlQuery
      ("https://www.youtube.com/oembed?format=json&url=https%3A%2F%2Fwww.youtube.com%2Fwatch%3Fv%3D".toList ++ id)
      = "format=json&url=https%3A%2F%2Fwww.youtube.com%2Fwatch%3Fv%3D".toList ++ id := by
    simp only [urlQuery]
    rw [show takeUntilChar '#'
        ("https://www.youtube.com/oembed?format=json&url=https%3A%2F%2Fwww.youtube.com%2Fwatch%3Fv%3D".toList ++ id)
        = "https://www.youtube.com/oembed?format=json&url=https%3A%2F%2Fwww.youtube.com%2Fwatch%3Fv%3D".toList
            ++ takeUntilChar '#' id from rfl]
    rw [takeUntilChar_eq_self (idOk_ne_char h (by decide))]
    exact rfl
  have hsplit : splitChar '&'
      ("format=json&url=https%3A%2F%2Fwww.youtube.com%2Fwatch%3Fv%3D".toList ++ id)
      = ["format=json".toList, "url=https%3A%2F%2Fwww.youtube.com%2Fwatch%3Fv%3D".toList ++ id] := by
    rw [show ("format=json&url=https%3A%2F%2Fwww.youtube.com%2Fwatch%3Fv%3D".toList ++ id)
        = "format=json".toList ++ '&' :: ("url=https%3A%2F%2Fwww.youtube.com%2Fwatch%3Fv%3D".toList ++ id)
        from rfl]
    rw [splitChar_sep_append _ (by decide), splitChar_no_sep hnoAmp]
  have hfv : firstUrlValue
      ["format=json".toList, "url=https%3A%2F%2Fwww.youtube.com%2Fwatch%3Fv%3D".toList ++ id]
      = some (unquotePlus ("https%3A%2F%2Fwww.youtube.com%2Fwatch%3Fv%3D".toList ++ id)) := rfl
  have hup : unquotePlus ("https%3A%2F%2Fwww.youtube.com%2Fwatch%3Fv%3D".toList ++ id)
      = "https://www.youtube.com/watch?v=".toList ++ id := by
    simp only [unquotePlus]
    rw [List.map_append]
    rw [map_plus_id (show ∀ c ∈ "https%3A%2F%2Fwww.youtube.com%2Fwatch%3Fv%3D".toList, c ≠ '+' by decide)]
    rw [map_plus_id (idOk_ne_char h (by decide))]
    rw [show unquoteL ("https%3A%2F%2Fwww.youtube.com%2Fwatch%3Fv%3D".toList ++ id)
        = "https://www.youtube.com/watch?v=".toList ++ unquoteL id from rfl]
    rw [unquoteL_no_pct (idOk_ne_char h (by decide))]
  have hw2 : unquoteL ("https://www.youtube.com/watch?v=".toList ++ id)
      = "https://www.youtube.com/watch?v=".toList ++ id := by
    apply unquoteL_no_pct
    intro c hc
    rcases List.mem_append.mp hc with hc | hc
    · have hstat : ∀ c ∈ "https://www.youtube.com/watch?v=".toList, c ≠ '%' := by decide
      exact hstat c hc
    · exact idOk_ne_char h (by decide) c hc
  simp only [getOembedWrapped]
  rw [hq, hsplit, hfv]
  simp only [Option.map_some']
  rw [hup, hw2]

theorem cleanYoutube_watchForm {id : Str} (h : idOk id) :
    cleanYoutube ("https://www.youtube.com/watch?v=".toList ++ (id ++ "&t=5".toList))
      = "https://www.youtube.com/watch?v=".toList ++ id := by
  have hco : containsSub "youtube.com/oembed".toList
      ("https://www.youtube.com/watch?v=".toList ++ (id ++ "&t=5".toList)) = false := by
    rw [scanOembed_pfxWatch]
    exact containsSub_short (by rw [List.length_append, h.1]; decide)
  have hemb : reSearch embedAt
      ("https://www.youtube.com/watch?v=".toList ++ (id ++ "&t=5".toList)) = none := by
    rw [scanEmbed_pfxWatch]
    exact reSearch_short embedAt_minlen _ (by rw [List.length_append, h.1]; decide)
  have hwatch : reSearch watchAt
      ("https://www.youtube.com/watch?v=".toList ++ (id ++ "&t=5".toList)) = some id := by
    rw [scanWatch_pfxWatch, takeCount11_of_idOk _ h]
    rfl
  rw [cleanYoutube_of_not_oembed hco]
  simp only [cleanYtRest, hemb, hwatch]

theorem cleanYoutube_embedForm {id : Str} (h : idOk id) :
    cleanYoutube ("https://www.youtube.com/embed/".toList ++ (id ++ "?x=1".toList))
      = "https://www.youtube.com/watch?v=".toList ++ id := by
  have hco : containsSub "youtube.com/oembed".toList
      ("https://www.youtube.com/embed/".toList ++ (id ++ "?x=1".toList)) = false := by
    rw [scanOembed_pfxEmbed]
    exact containsSub_short (by rw [List.length_append, h.1]; decide)
  have hemb : reSearch embedAt
      ("https://www.youtube.com/embed/".toList ++ (id ++ "?x=1".toList)) = some id := by
    rw [scanEmbed_pfxEmbed, takeCount11_of_idOk _ h]
    rfl
  rw [cleanYoutube_of_not_oembed hco]
  simp only [cleanYtRest, hemb]

theorem cleanYoutube_shortForm {id : Str} (h : idOk id) :
    cleanYoutube ("https://youtu.be/".toList ++ id)
      = "https://www.youtube.com/watch?v=".toList ++ id := by
  have hco : containsSub "youtube.com/oembed".toList
      ("https://youtu.be/".toList ++ id) = false := by
    rw [scanOembed_pfxShort]
    exact containsSub_short (by rw [h.1]; decide)
  have hemb : reSearch embedAt ("https://youtu.be/".toList ++ id) = none := by
    rw [scanEmbed_pfxShort]
    exact reSearch_short embedAt_minlen _ (by rw [h.1]; decide)
  have hwatch : reSearch watchAt ("https://youtu.be/".toList ++ id) = none := by
    rw [scanWatch_pfxShort]
    exact reSearch_short watchAt_minlen _ (by rw [h.1]; decide)
  have hshort : reSearch shortAt ("https://youtu.be/".toList ++ id) = some id := by
    rw [scanShort_pfxShort, takeCount11_of_idOk_nil h]
    rfl
  rw [cleanYoutube_of_not_oembed hco]
  simp only [cleanYtRest, hemb, hwatch, hshort]

theorem cleanYoutube_oembedForm {id : Str} (h : idOk id) :
    cleanYoutube
        ("https://www.youtube.com/oembed?format=json&url=https%3A%2F%2Fwww.youtube.com%2Fwatch%3Fv%3D".toList ++ id)
      = "https://www.youtube.com/watch?v=".toList ++ id := by
  have hco : containsSub "youtube.com/oembed".toList
      ("https://www.youtube.com/oembed?format=json&url=https%3A%2F%2Fwww.youtube.com%2Fwatch%3Fv%3D".toList ++ id)
      = true := rfl
  rw [cleanYoutube_oembed_some hco (getOembed_oembedForm h)]
  exact cleanYoutube_canonWatch h

theorem egid_watchForm {id : Str} (h : idOk id) :
    _extract_video_id_generic ("https://www.youtube.com/watch?v=".toList ++ (id ++ "&t=5".toList))
      = some ("yt:".toList ++ id) := by
  have hne := append_str_ne_nil "https://www.youtube.com/watch?v=" (id ++ "&t=5".toList) (by decide)
  have hyt : reSearch egidYtAt
      ("https://www.youtube.com/watch?v=".toList ++ (id ++ "&t=5".toList)) = some id := by
    rw [scanYt_pfxWatch, takeCount11_of_idOk _ h]
    rfl
  simp only [_extract_video_id_generic, if_neg hne, hyt]

theorem egid_embedForm {id : Str} (h : idOk id) :
    _extract_video_id_generic ("https://www.youtube.com/embed/".toList ++ (id ++ "?x=1".toList))
      = some ("yt:".toList ++ id) := by
  have hne := append_str_ne_nil "https://www.youtube.com/embed/" (id ++ "?x=1".toList) (by decide)
  have hyt : reSearch egidYtAt
      ("https://www.youtube.com/embed/".toList ++ (id ++ "?x=1".toList)) = some id := by
    rw [scanYt_pfxEmbed, takeCount11_of_idOk _ h]
    rfl
  simp only [_extract_video_id_generic, if_neg hne, hyt]

theorem egid_shortForm {id : Str} (h : idOk id) :
    _extract_video_id_generic ("https://youtu.be/".toList ++ id)
      = some ("yt:".toList ++ id) := by
  have hne := append_str_ne_nil "https://youtu.be/" id (by decide)
  have hyt : reSearch egidYtAt ("https://youtu.be/".toList ++ id) = some id := by
    rw [scanYt_pfxShort, takeCount11_of_idOk_nil h]
    rfl
  simp only [_extract_video_id_generic, if_neg hne, hyt]

/-- C6 counterexample: the `-nocookie` embed form is NOT canonicalized by
`clean_video_url` (returned unchanged), and the identity keys produced by
`_extract_video_id_generic` for the `-nocookie` and oEmbed forms are
`file:`-prefixed path keys, not `yt:<id>`. -/
theorem youtube_canonicalization_nocookie_oembed_counterexample :
    clean_video_url "https://www.youtube-nocookie.com/embed/dQw4w9WgXcQ".toList "youtube".toList
      = "https://www.youtube-nocookie.com/embed/dQw4w9WgXcQ".toList ∧
    "https://www.youtube-nocookie.com/embed/dQw4w9WgXcQ".toList
      ≠ "https://www.youtube.com/watch?v=dQw4w9WgXcQ".toList ∧
    _extract_video_id_generic "https://www.youtube-nocookie.com/embed/dQw4w9WgXcQ".toList
      = some "file:/embed/dqw4w9wgxcq".toList ∧
    _extract_video_id_generic
        "https://www.youtube.com/oembed?format=json&url=https%3A%2F%2Fwww.youtube.com%2Fwatch%3Fv%3DdQw4w9WgXcQ".toList
      = some "file:/oembed".toList ∧
    some ("file:/oembed".toList) ≠ some ("yt:dQw4w9WgXcQ".toList) := by
  refine ⟨?_, by decide, by decide, by decide, by decide⟩
  rw [clean_unfold_youtube (by decide),
    cleanYoutube_of_not_oembed (by decide)]
  decide

/-- C6 amended: for every 11-character id, the `watch?v=`, `/embed/`,
`youtu.be/` and oEmbed-wrapper forms all canonicalize to
`https://www.youtube.com/watch?v=<id>` under `clean_video_url` with
platform `youtube`, and `_extract_video_id_generic` yields the identity key
`yt:<id>` for the `watch?v=`, `/embed/` and `youtu.be/` forms.  (The
`-nocookie` embed form is not canonicalized, and the oEmbed wrapper and
`-nocookie` forms get `file:`-path identity keys — see the
counterexample.) -/
theorem youtube_canonicalization_equivalence (id : Str) (h : idOk id) :
    clean_video_url ("https://www.youtube.com/watch?v=".toList ++ (id ++ "&t=5".toList))
        "youtube".toList = "https://www.youtube.com/watch?v=".toList ++ id ∧
    clean_video_url ("https://www.youtube.com/embed/".toList ++ (id ++ "?x=1".toList))
        "youtube".toList = "https://www.youtube.com/watch?v=".toList ++ id ∧
    clean_video_url ("https://youtu.be/".toList ++ id)
        "youtube".toList = "https://www.youtube.com/watch?v=".toList ++ id ∧
    clean_video_url
        ("https://www.youtube.com/oembed?format=json&url=https%3A%2F%2Fwww.youtube.com%2Fwatch%3Fv%3D".toList ++ id)
        "youtube".toList = "https://www.youtube.com/watch?v=".toList ++ id ∧
    _extract_video_id_generic ("https://www.youtube.com/watch?v=".toList ++ (id ++ "&t=5".toList))
      = some ("yt:".toList ++ id) ∧
    _extract_video_id_generic ("https://www.youtube.com/embed/".toList ++ (id ++ "?x=1".toList))
      = some ("yt:".toList ++ id) ∧
    _extract_video_id_generic ("https://youtu.be/".toList ++ id)
      = some ("yt:".toList ++ id) := by
  refine ⟨?_, ?_, ?_, ?_, egid_watchForm h, egid_embedForm h, egid_shortForm h⟩
  · rw [clean_unfold_youtube (append_str_ne_nil _ _ (by decide))]
    exact cleanYoutube_watchForm h
  · rw [clean_unfold_youtube (append_str_ne_nil _ _ (by decide))]
    exact cleanYoutube_embedForm h
  · rw [clean_unfold_youtube (append_str_ne_nil _ _ (by decide))]
    exact cleanYoutube_shortForm h
  · rw [clean_unfold_youtube (append_str_ne_nil _ _ (by decide))]
    exact cleanYoutube_oembedForm h

/-- Witness for `youtube_canonicalization_equivalence` at the spec's own
example id. -/
theorem youtube_canonicalization_equivalence_witness :
    clean_video_url ("https://www.youtube.com/watch?v=".toList ++ ("dQw4w9WgXcQ".toList ++ "&t=5".toList))
        "youtube".toList = "https://www.youtube.com/watch?v=".toList ++ "dQw4w9WgXcQ".toList ∧
    clean_video_url ("https://www.youtube.com/embed/".toList ++ ("dQw4w9WgXcQ".toList ++ "?x=1".toList))
        "youtube".toList = "https://www.youtube.com/watch?v=".toList ++ "dQw4w9WgXcQ".toList ∧
    clean_video_url ("https://youtu.be/".toList ++ "dQw4w9WgXcQ".toList)
        "youtube".toList = "https://www.youtube.com/watch?v=".toList ++ "dQw4w9WgXcQ".toList ∧
    clean_video_url
        ("https://www.youtube.com/oembed?format=json&url=https%3A%2F%2Fwww.youtube.com%2Fwatch%3Fv%3D".toList
          ++ "dQw4w9WgXcQ".toList)
        "youtube".toList = "https://www.youtube.com/watch?v=".toList ++ "dQw4w9WgXcQ".toList ∧
    _extract_video_id_generic
        ("https://www.youtube.com/watch?v=".toList ++ ("dQw4w9WgXcQ".toList ++ "&t=5".toList))
      = some ("yt:".toList ++ "dQw4w9WgXcQ".toList) ∧
    _extract_video_id_generic
        ("https://www.youtube.com/embed/".toList ++ ("dQw4w9WgXcQ".toList ++ "?x=1".toList))
      = some ("yt:".toList ++ "dQw4w9WgXcQ".toList) ∧
    _extract_video_id_generic ("https://youtu.be/".toList ++ "dQw4w9WgXcQ".toList)
      = some ("yt:".toList ++ "dQw4w9WgXcQ".toList) :=
  youtube_canonicalization_equivalence "dQw4w9WgXcQ".toList ⟨by decide, by decide⟩

/-! ### Theorems for the validity gate, platform classifier and network strategy -/

/-- C4 counterexample: the validity gate does NOT reject structurally
implausible URLs — a URL matching no recognized platform signature
(`https://example.com/page`) and a one-character URL are both allowed by
default, contradicting the claim that they are rejected. -/
theorem validity_gate_allows_unrecognized :
    is_valid_lesson_video "https://example.com/page".toList = true ∧
    is_valid_lesson_video "x".toList = true := by decide

/-- C4 amended: the validity gate rejects only empty URLs (and
blacklisted recognized ids); any nonempty URL on which none of the six
platform id patterns matches — in particular one with no recognized
platform signature, however short — is allowed by default.  There is no
minimum-length check. -/
theorem validity_gate_empty_and_default_allow (u : Str) (hne : u ≠ [])
    (hnone : gateIdSearch u = none) :
    is_valid_lesson_video [] = false ∧ is_valid_lesson_video u = true := by
  refine ⟨rfl, ?_⟩
  simp [is_valid_lesson_video, hne, hnone]

/-- Witness for `validity_gate_empty_and_default_allow`. -/
theorem validity_gate_empty_and_default_allow_witness :
    is_valid_lesson_video [] = false ∧
    is_valid_lesson_video "https://example.org/a/page".toList = true :=
  validity_gate_empty_and_default_allow "https://example.org/a/page".toList
    (by decide) (by decide)

/-- C5 counterexample: a YouTube-hosted thumbnail URL ending in `.jpg` is
classified `youtube` by `detect_platform`, not `unknown` — the platform
classifier performs no image rejection. -/
theorem detect_platform_youtube_thumbnail :
    detect_platform "https://img.youtube.com/vi/dQw4w9WgXcQ/0.jpg".toList = "youtube".toList ∧
    "youtube".toList ≠ "unknown".toList := by decide

/-- C5 amended: image-extension rejection exists only in the network-log
candidate filter `_is_probable_video_url`, which returns false for every
URL whose lower-cased form ends in a known image extension;
`detect_platform` itself classifies by domain substring only, so an image
URL hosted on a video platform's domain is classified as that platform. -/
theorem image_urls_rejected_only_in_network_filter (u e : Str)
    (he : e ∈ imageExts) (hend : endsWithSub e (lowerStr u) = true) :
    _is_probable_video_url u = false ∧
    detect_platform "https://i.youtube.com/x/hq.jpg".toList = "youtube".toList := by
  constructor
  · have hany : imageExts.any (fun x => endsWithSub x (lowerStr u)) = true :=
      List.any_eq_true.mpr ⟨e, he, hend⟩
    simp [_is_probable_video_url, hany]
  · decide

/-- Witness for `image_urls_rejected_only_in_network_filter`. -/
theorem image_urls_rejected_only_in_network_filter_witness :
    _is_probable_video_url "https://img.youtube.com/vi/abc/0.JPG".toList = false ∧
    detect_platform "https://i.youtube.com/x/hq.jpg".toList = "youtube".toList :=
  image_urls_rejected_only_in_network_filter "https://img.youtube.com/vi/abc/0.JPG".toList
    ".jpg".toList (by decide) (by decide)

/-- C3 counterexample: for a network log whose only candidate is an
`.m3u8` URL, the candidate's platform field is `unknown`, not `direct` —
`detect_platform`'s direct-media extension list (`.mp4/.webm/.avi/.mov`)
does not include `.m3u8`. -/
theorem network_m3u8_platform_not_direct :
    (_extract_video_from_network_logs
        ["https://cdn.example.com/stream/video.m3u8".toList]).map VideoData.platform
      = some "unknown".toList ∧
    "unknown".toList ≠ "direct".toList := by decide

/-- C3 amended: when the only candidate is a network-log URL containing
`.m3u8`, the network-inspection strategy does return that URL as its
candidate and the URL passes the validity gate (by default-allow, no
pattern matching it), but the candidate's platform field is `unknown`,
because `.m3u8` is not in `detect_platform`'s direct-media extension
list. -/
theorem network_m3u8_scenario :
    _extract_video_from_network_logs ["https://cdn.example.com/stream/video.m3u8".toList]
      = some ⟨"https://cdn.example.com/stream/video.m3u8".toList, "unknown".toList⟩ ∧
    is_valid_lesson_video "https://cdn.example.com/stream/video.m3u8".toList = true := by decide

/-! ## Lesson-relevance validation (skool_content_extractor.py:572-729)

The browser is abstracted to the page facts the validator reads: the
current URL, the body text, and the number of elements matching the
lesson/content/video/player container selectors.  A `none` driver models
`driver=None` (whose attribute accesses raise and are caught, yielding the
0.0 branches).  The float confidence scores are modelled as integer
tenths (0.4 -> 4, etc.): every comparison the source performs on these
floats gives the same truth value as the integer comparison on tenths —
in IEEE doubles 0.4+0.3 rounds to exactly the double nearest 0.7 (so
`0.4+0.3 > 0.7` is false, as `7 > 7` is), 0.3+0.3 to the double nearest
0.6, and 0.4+0.3+0.3 (after `min(.,1.0)`) to 1.0.  Of `LESSON_CONTEXT`
only the fields the validator reads/writes are modelled; the cache stores
the `valid` flag, the only field ever read back. -/

structure PageEnv where
  current_url : Str
  page_text : Str
  container_count : Nat
deriving DecidableEq

structure LessonCtx where
  current_lesson_url : Option Str
  validation_cache : List (Str × Bool)
deriving DecidableEq

def cacheGet (k : Str) : List (Str × Bool) → Option Bool
  | [] => none
  | (k', v) :: t => if k' = k then some v else cacheGet k t

def cacheInsert (k : Str) (v : Bool) : List (Str × Bool) → List (Str × Bool)
  | [] => [(k, v)]
  | (k', v') :: t => if k' = k then (k, v) :: t else (k', v') :: cacheInsert k v t

def STOP_WORDS : List Str :=
  (["the", "a", "an", "and", "or", "but", "in", "on", "at", "to", "for", "of", "with", "by",
    "is", "are", "was", "were", "be", "been", "have", "has", "had", "do", "does", "did",
    "will", "would", "could", "should", "may", "might", "can", "this", "that", "these",
    "those"]).map String.toList

/-- Python `str.split()` (split on whitespace runs, dropping empties). -/
def splitWsGo : Str → Str → List Str
  | acc, [] => if acc = [] then [] else [acc.reverse]
  | acc, c :: t =>
    if c.isWhitespace then
      if acc = [] then splitWsGo [] t else acc.reverse :: splitWsGo [] t
    else splitWsGo (c :: acc) t

def splitWhitespaceL (s : Str) : List Str := splitWsGo [] s

/-- The interleaved keyword/bigram sequence of `_extract_lesson_identifiers`:
`w1, w1-w2, w2, w2-w3, ..., wn`. -/
def kwChain : List Str → List Str
  | [] => []
  | [w] => [w]
  | w1 :: w2 :: rest => w1 :: (w1 ++ '-' :: w2) :: kwChain (w2 :: rest)

/-- `re.search(r'(\d+)', title)`: the first maximal digit run. -/
def lessonNumberOf (title : Str) : Option Str := reSearch (takeGreedy1 isDigitCh) title

/-- `_extract_lesson_identifiers` (skool_content_extractor.py:654). -/
def _extract_lesson_identifiers (lesson_title : Str) : List Str :=
  let key_words := (splitWhitespaceL (lowerStr lesson_title)).filter
    (fun w => decide (w ∉ STOP_WORDS) && decide (2 < w.length))
  lesson_title :: (kwChain key_words ++
    match lessonNumberOf lesson_title with
    | some n => [n]
    | none => [])

def video_keywords : List Str :=
  (["video", "watch", "play", "lesson", "tutorial", "demo"]).map String.toList

/-- `_check_page_content_relevance` (skool_content_extractor.py:683).  The
candidate URL is matched against the lower-cased page text verbatim (the
URL itself is not lower-cased, as in the source). -/
def _check_page_content_relevance (env : PageEnv) (lesson_title video_url : Str) : Nat :=
  let page_text := lowerStr env.page_text
  let title_present := containsSub (lowerStr lesson_title) page_text
  let video_context_present := video_keywords.any (fun k => containsSub k page_text)
  let s1 := (if title_present then 4 else 0) + (if video_context_present then 3 else 0)
  let s2 := s1 + (if containsSub video_url page_text then 3 else 0)
  min s2 10

/-- `_check_video_container_relevance` (skool_content_extractor.py:714);
with no driver the attribute access raises and the handler returns 0.0. -/
def _check_video_container_relevance (driver : Option PageEnv) : Nat :=
  match driver with
  | none => 0
  | some env => if 0 < env.container_count then 7 else 3

/-- Method 1 of `validate_video_belongs_to_lesson`: some lesson-derived
identifier occurs (case-insensitively) in the URL. -/
def identifierMatches (video_url lesson_title : Str) : Bool :=
  (_extract_lesson_identifiers lesson_title).any
    (fun ident => containsSub (lowerStr ident) (lowerStr video_url))

/-- Method 2 of `validate_video_belongs_to_lesson`: `driver` and a truthy
recorded lesson URL exist, and the browser is exactly on that URL. -/
def onLessonPage (driver : Option PageEnv) (lessonUrl : Option Str) : Bool :=
  match driver, lessonUrl with
  | some env, some lu => decide (lu ≠ []) && decide (env.current_url = lu)
  | _, _ => false

/-- The page-relevance score as called from the validator (0 when there is
no driver). -/
def pageRelevanceOf (driver : Option PageEnv) (lesson_title video_url : Str) : Nat :=
  match driver with
  | some env => _check_page_content_relevance env lesson_title video_url
  | none => 0

/-- `validate_video_belongs_to_lesson` (skool_content_extractor.py:572).
Returns the Python boolean together with the updated lesson context
(validation cache). -/
def validate_video_belongs_to_lesson (video_url lesson_title : Str) (driver : Option PageEnv)
    (ctx : LessonCtx) : Bool × LessonCtx :=
  if video_url = [] ∨ lesson_title = [] then (false, ctx)
  else
    let cache_key := video_url ++ '|' :: lesson_title
    match cacheGet cache_key ctx.validation_cache with
    | some cached => (cached, ctx)
    | none =>
      let m1 := identifierMatches video_url lesson_title
      let c1 := if m1 then 8 else 0
      let m2 := onLessonPage driver ctx.current_lesson_url
      let c2 := if m2 then 9 else c1
      let rel := pageRelevanceOf driver lesson_title video_url
      let m3 := driver.isSome && decide (c2 < 8) && decide (7 < rel)
      let c3 := if m3 then rel else c2
      let m4 := decide (c3 < 6) && decide (6 < _check_video_container_relevance driver)
      let valid := m1 || m2 || m3 || m4
      (valid, { ctx with validation_cache := cacheInsert cache_key valid ctx.validation_cache })

/-- C8 counterexample: a video with no identifier overlap, not on the
lesson's page, and with zero page-content co-occurrence is nevertheless
ACCEPTED when the DOM contains any lesson/content/video/player-class
containers — the container-locality signal (0.7 > 0.6) fires on container
presence alone, contradicting the claim's "whatever DOM containers are
present". -/
theorem relevance_container_accept_counterexample :
    (validate_video_belongs_to_lesson "https://vimeo.com/111111111".toList "Alpha".toList
        (some ⟨"https://skool.com/other".toList, "".toList, 5⟩)
        ⟨some "https://skool.com/lessonA".toList, []⟩).1 = true := by decide

/-- C8 amended: with no cached result for the pair, no lesson-identifier
occurring in the URL, the browser not on the lesson's recorded page, page
content containing neither the lesson title nor any video-context keyword
nor the URL, AND no element matching the lesson/content/video/player
container selectors, `validate_video_belongs_to_lesson` returns false.
(Container presence alone is enough to accept — see the
counterexample.) -/
theorem relevance_rejection (video_url lesson_title : Str) (driver : Option PageEnv)
    (ctx : LessonCtx)
    (hcache : cacheGet (video_url ++ '|' :: lesson_title) ctx.validation_cache = none)
    (hid : ∀ ident ∈ _extract_lesson_identifiers lesson_title,
      containsSub (lowerStr ident) (lowerStr video_url) = false)
    (hdrv : ∀ env, driver = some env →
      (∀ lu, ctx.current_lesson_url = some lu → lu ≠ [] → env.current_url ≠ lu) ∧
      containsSub (lowerStr lesson_title) (lowerStr env.page_text) = false ∧
      (∀ kw ∈ video_keywords, containsSub kw (lowerStr env.page_text) = false) ∧
      containsSub video_url (lowerStr env.page_text) = false ∧
      env.container_count = 0) :
    (validate_video_belongs_to_lesson video_url lesson_title driver ctx).1 = false := by
  have hm1 : identifierMatches video_url lesson_title = false := by
    rw [identifierMatches, List.any_eq_false]
    intro ident hident
    simp [hid ident hident]
  have hm2 : onLessonPage driver ctx.current_lesson_url = false := by
    rcases driver with _ | env
    · rfl
    · cases hlu : ctx.current_lesson_url with
      | none => rfl
      | some lu =>
        by_cases hlune : lu = []
        · simp [onLessonPage, hlune]
        · have hne := (hdrv env rfl).1 lu hlu hlune
          simp [onLessonPage, hlune, hne]
  have hrel : pageRelevanceOf driver lesson_title video_url = 0 := by
    rcases driver with _ | env
    · rfl
    · obtain ⟨_, ht, hkw, hurl, _⟩ := hdrv env rfl
      have hkw2 : video_keywords.any (fun k => containsSub k (lowerStr env.page_text)) = false := by
        rw [List.any_eq_false]
        intro kw hk
        simp [hkw kw hk]
      simp only [pageRelevanceOf, _check_page_content_relevance, ht, hkw2, hurl]
      simp
  have h6 : decide (6 < _check_video_container_relevance driver) = false := by
    have hcont : _check_video_container_relevance driver ≤ 3 := by
      rcases driver with _ | env
      · simp [_check_video_container_relevance]
      · have hc := (hdrv env rfl).2.2.2.2
        simp [_check_video_container_relevance, hc]
    simp only [decide_eq_false_iff_not]
    omega
  by_cases hnil : video_url = [] ∨ lesson_title = []
  · unfold validate_video_belongs_to_lesson
    rw [if_pos hnil]
  · unfold validate_video_belongs_to_lesson
    rw [if_neg hnil]
    simp only [hcache]
    simp only [hm1, hm2, hrel, h6, Bool.false_eq_true, if_false, Bool.false_and,
      Bool.and_false, Bool.false_or, Bool.or_false]
    simp

/-- Witness for `relevance_rejection`. -/
theorem relevance_rejection_witness :
    (validate_video_belongs_to_lesson "https://vimeo.com/111111111".toList "Alpha".toList
        (some ⟨"https://skool.com/other".toList, "".toList, 0⟩)
        ⟨some "https://skool.com/lessonA".toList, []⟩).1 = false :=
  relevance_rejection _ _ _ _ (by decide) (by decide)
    (by
      intro env he
      injection he with he2
      rw [← he2]
      refine ⟨?_, by decide, by decide, by decide, by decide⟩
      intro lu hlu hne
      injection hlu with hlu2
      rw [← hlu2]
      decide)

/-! ## Session tracking state (skool_content_extractor.py:38-122)

`SEEN_VIDEO_IDS_SESSION` (a set), `SESSION_VIDEO_TRACKING` (an
insertion-ordered dict) and the counters of `SESSION_STATS`.  Timestamps
are wall-clock diagnostics and are not modelled. -/

structure Registration where
  video_url : Str
  lesson_title : Str
  extraction_method : Str
  platform : Option Str
  order : Nat
deriving DecidableEq

structure SessionStats where
  videos_processed : Nat
  duplicates_blocked : Nat
  unique_videos_found : Nat
  lessons_processed : Nat
  extraction_methods_used : List Str
  platforms_detected : List Str
deriving DecidableEq

structure SessState where
  seen : List Str
  tracking : List (Str × Registration)
  stats : SessionStats
deriving DecidableEq

/-- `reset_session_tracking` (skool_content_extractor.py:81): clears all
session-level tracking. -/
def reset_session_tracking : SessState :=
  { seen := [], tracking := [], stats := ⟨0, 0, 0, 0, [], []⟩ }

/-- Python `set.add` on the model's list representation. -/
def addToSetL (x : Str) (l : List Str) : List Str := if x ∈ l then l else x :: l

/-- Python dict assignment `d[k] = v` (replace in place, else append). -/
def dictInsert (k : Str) (v : Registration) : List (Str × Registration) → List (Str × Registration)
  | [] => [(k, v)]
  | (k', v') :: t => if k' = k then (k, v) :: t else (k', v') :: dictInsert k v t

/-- Python `d.get(k)`. -/
def dictGet (k : Str) : List (Str × Registration) → Option Registration
  | [] => none
  | (k', v) :: t => if k' = k then some v else dictGet k t

/-- `register_video_in_session` (skool_content_extractor.py:124).
Returns the Python boolean result together with the updated session
state. -/
def register_video_in_session (video_url lesson_title extraction_method : Str)
    (platform : Option Str) (st : SessState) : Bool × SessState :=
  if video_url = [] then (false, st)
  else
    match _extract_video_id_generic video_url with
    | none => (true, st)
    | some video_id =>
      let stats1 : SessionStats :=
        { st.stats with
          videos_processed := st.stats.videos_processed + 1
          extraction_methods_used := addToSetL extraction_method st.stats.extraction_methods_used
          platforms_detected :=
            match platform with
            | some p => if p ≠ [] then addToSetL p st.stats.platforms_detected
                        else st.stats.platforms_detected
            | none => st.stats.platforms_detected }
      if video_id ∈ st.seen then
        (false, { st with stats := { stats1 with duplicates_blocked := stats1.duplicates_blocked + 1 } })
      else
        (true,
          { seen := video_id :: st.seen
            tracking := dictInsert video_id
              ⟨video_url, lesson_title, extraction_method, platform, st.tracking.length + 1⟩
              st.tracking
            stats := { stats1 with unique_videos_found := stats1.unique_videos_found + 1 } })

/-- `check_session_duplicate_early` (skool_content_extractor.py:213):
read-only duplicate probe. -/
def check_session_duplicate_early (video_url : Str) (st : SessState) : Bool :=
  if video_url = [] then false
  else
    match _extract_video_id_generic video_url with
    | none => false
    | some vid => decide (vid ∈ st.seen)

/-- One call of `register_video_in_session` as trace data. -/
structure RegCall where
  url : Str
  lesson : Str
  method : Str
  platform : Option Str
deriving DecidableEq

/-- Fold a sequence of `register_video_in_session` calls over the state. -/
def applyCalls (st : SessState) : List SkoolX.RegCall → SessState
  | [] => st
  | c :: rest => applyCalls (register_video_in_session c.url c.lesson c.method c.platform st).2 rest

/-! ### Session tracker lemmas -/

theorem egid_ne_nil {u : Str} {k : Str} (h : _extract_video_id_generic u = some k) : u ≠ [] := by
  intro hnil
  subst hnil
  simp [_extract_video_id_generic] at h

theorem register_of_mem_fst {url lt m k : Str} {p : Option Str} {st : SessState}
    (hk : _extract_video_id_generic url = some k) (hmem : k ∈ st.seen) :
    (register_video_in_session url lt m p st).1 = false := by
  have hne : url ≠ [] := egid_ne_nil hk
  simp only [register_video_in_session, if_neg hne, hk]
  simp [hmem]

theorem register_of_mem_state {url lt m k : Str} {p : Option Str} {st : SessState}
    (hk : _extract_video_id_generic url = some k) (hmem : k ∈ st.seen) :
    (register_video_in_session url lt m p st).2.stats.duplicates_blocked
        = st.stats.duplicates_blocked + 1 ∧
    (register_video_in_session url lt m p st).2.stats.unique_videos_found
        = st.stats.unique_videos_found ∧
    (register_video_in_session url lt m p st).2.tracking = st.tracking ∧
    (register_video_in_session url lt m p st).2.seen = st.seen := by
  have hne : url ≠ [] := egid_ne_nil hk
  simp only [register_video_in_session, if_neg hne, hk]
  simp [hmem]

theorem register_seen_mono (url lt m : Str) (p : Option Str) (st : SessState) {k : Str}
    (hmem : k ∈ st.seen) :
    k ∈ (register_video_in_session url lt m p st).2.seen := by
  simp only [register_video_in_session]
  split
  · exact hmem
  · split
    · exact hmem
    · split
      · exact hmem
      · exact List.mem_cons_of_mem _ hmem

theorem applyCalls_seen_mono (calls : List RegCall) (st : SessState) {k : Str}
    (hmem : k ∈ st.seen) : k ∈ (applyCalls st calls).seen := by
  induction calls generalizing st with
  | nil => exact hmem
  | cons c rest ih => exact ih _ (register_seen_mono _ _ _ _ _ hmem)

theorem register_true_mem {url lt m k : Str} {p : Option Str} {st : SessState}
    (hk : _extract_video_id_generic url = some k)
    (h : (register_video_in_session url lt m p st).1 = true) :
    k ∈ (register_video_in_session url lt m p st).2.seen := by
  have hne : url ≠ [] := egid_ne_nil hk
  simp only [register_video_in_session, if_neg hne, hk] at h ⊢
  by_cases hmem : k ∈ st.seen
  · simp [hmem] at h
  · simp [hmem]

/-- C1: session uniqueness, first-registration-wins.  Starting from a reset
session, once `register_video_in_session` has accepted a video whose
extracted identity key is `k`, every later call with any URL carrying the
same identity key `k` and a different lesson title returns false,
increments `duplicates_blocked` by exactly 1, and leaves
`unique_videos_found` and the stored registration metadata for `k`
unchanged. -/
theorem session_first_registration_wins
    (pre mid : List RegCall) (c : RegCall) (k url2 lesson2 method2 : Str)
    (platform2 : Option Str)
    (hk : _extract_video_id_generic c.url = some k)
    (hacc : (register_video_in_session c.url c.lesson c.method c.platform
              (applyCalls reset_session_tracking pre)).1 = true)
    (hk2 : _extract_video_id_generic url2 = some k)
    (hdiff : lesson2 ≠ c.lesson) :
    let st1 := (register_video_in_session c.url c.lesson c.method c.platform
                  (applyCalls reset_session_tracking pre)).2
    let st2 := applyCalls st1 mid
    (register_video_in_session url2 lesson2 method2 platform2 st2).1 = false ∧
    (register_video_in_session url2 lesson2 method2 platform2 st2).2.stats.duplicates_blocked
        = st2.stats.duplicates_blocked + 1 ∧
    (register_video_in_session url2 lesson2 method2 platform2 st2).2.stats.unique_videos_found
        = st2.stats.unique_videos_found ∧
    dictGet k (register_video_in_session url2 lesson2 method2 platform2 st2).2.tracking
        = dictGet k st2.tracking := by
  intro st1 st2
  have hmem1 : k ∈ st1.seen := register_true_mem hk hacc
  have hmem2 : k ∈ st2.seen := applyCalls_seen_mono mid st1 hmem1
  obtain ⟨hdup, huniq, htrack, _⟩ :=
    @register_of_mem_state url2 lesson2 method2 k platform2 st2 hk2 hmem2
  exact ⟨register_of_mem_fst hk2 hmem2, hdup, huniq, by rw [htrack]⟩

/-- Witness for `session_first_registration_wins` at a concrete trace. -/
theorem session_first_registration_wins_witness :
    let c : RegCall := ⟨"https://youtu.be/abcdefghijk".toList, "Lesson One".toList,
                        "METHOD_1_JSON".toList, some "youtube".toList⟩
    let st1 := (register_video_in_session c.url c.lesson c.method c.platform
                  (applyCalls reset_session_tracking [])).2
    let st2 := applyCalls st1 []
    let url2 := "https://www.youtube.com/watch?v=abcdefghijk".toList
    let lesson2 := "Lesson Two".toList
    let method2 := "METHOD_2_CLICK".toList
    (register_video_in_session url2 lesson2 method2 none st2).1 = false ∧
    (register_video_in_session url2 lesson2 method2 none st2).2.stats.duplicates_blocked
        = st2.stats.duplicates_blocked + 1 ∧
    (register_video_in_session url2 lesson2 method2 none st2).2.stats.unique_videos_found
        = st2.stats.unique_videos_found ∧
    dictGet "yt:abcdefghijk".toList (register_video_in_session url2 lesson2 method2 none st2).2.tracking
        = dictGet "yt:abcdefghijk".toList st2.tracking :=
  session_first_registration_wins [] [] _ "yt:abcdefghijk".toList _ _ _ _
    (by decide) (by decide) (by decide) (by decide)

/-! ### Counter-consistency invariant (C10) -/

theorem dictInsert_not_mem {k : Str} (v : Registration) (l : List (Str × Registration))
    (h : k ∉ l.map Prod.fst) : dictInsert k v l = l ++ [(k, v)] := by
  induction l with
  | nil => rfl
  | cons hd tl ih =>
    simp only [List.map_cons, List.mem_cons] at h
    push_neg at h
    simp only [dictInsert]
    rw [if_neg (fun he => h.1 he.symm), ih h.2]
    rfl

/-- Strengthened induction invariant for the session registry. -/
def sessInv (st : SessState) : Prop :=
  st.stats.videos_processed = st.stats.unique_videos_found + st.stats.duplicates_blocked ∧
  st.stats.unique_videos_found = st.seen.length ∧
  st.seen.Perm (st.tracking.map Prod.fst)

theorem register_preserves_sessInv (url lt m : Str) (p : Option Str) (st : SessState)
    (h : sessInv st) : sessInv (register_video_in_session url lt m p st).2 := by
  obtain ⟨h1, h2, h3⟩ := h
  by_cases hne : url = []
  · simpa [register_video_in_session, hne, sessInv] using ⟨h1, h2, h3⟩
  · simp only [register_video_in_session, if_neg hne]
    cases hid : _extract_video_id_generic url with
    | none => exact ⟨h1, h2, h3⟩
    | some vid =>
      by_cases hmem : vid ∈ st.seen
      · simp only [hmem, if_true, reduceIte]
        refine ⟨?_, h2, h3⟩
        simp [h1]
        omega
      · simp only [hmem, if_false, reduceIte]
        have hnotk : vid ∉ st.tracking.map Prod.fst := fun hx => hmem (h3.mem_iff.mpr hx)
        refine ⟨?_, ?_, ?_⟩
        · simp [h1]
          omega
        · simp [h2]
        · simp only [dictInsert_not_mem _ _ hnotk, List.map_append]
          exact ((h3.cons vid).trans (List.perm_append_singleton _ _).symm)

theorem applyCalls_preserves_sessInv (calls : List RegCall) (st : SessState)
    (h : sessInv st) : sessInv (applyCalls st calls) := by
  induction calls generalizing st with
  | nil => exact h
  | cons c rest ih => exact ih _ (register_preserves_sessInv _ _ _ _ _ h)

/-- C10: counter consistency.  After `reset_session_tracking` followed by
any sequence of `register_video_in_session` calls, the session statistics
satisfy `videos_processed = unique_videos_found + duplicates_blocked`, and
`unique_videos_found` equals both the number of seen identity keys and the
number of stored registrations.  (The branch that accepts a URL with no
extractable identity key changes neither the counters nor the sets, so it
preserves the relation as well.) -/
theorem session_counter_consistency (calls : List RegCall) :
    let st := applyCalls reset_session_tracking calls
    st.stats.videos_processed = st.stats.unique_videos_found + st.stats.duplicates_blocked ∧
    st.stats.unique_videos_found = st.seen.length ∧
    st.seen.length = st.tracking.length := by
  intro st
  have h : sessInv st :=
    applyCalls_preserves_sessInv calls reset_session_tracking (by exact ⟨rfl, rfl, List.Perm.refl _⟩)
  obtain ⟨h1, h2, h3⟩ := h
  exact ⟨h1, h2, by simpa using h3.length_eq⟩

/-! ## `_final_video_validation` (skool_content_extractor.py:3430) and
`extract_video_url` (skool_content_extractor.py:3138)

The extraction strategies interrogate the live page; their results are the
model's inputs (`PageInputs`).  Method 0's preliminary `__NEXT_DATA__`
probe only feeds the modal detector, which is already abstracted by
`modalVideo`.  The strategies in source order: modal detection, JSON
(`__NEXT_DATA__`) extraction with the `skool-video-id:` skip, player
click, iframe scan, network-log inspection (no validity pre-check), legacy
YouTube fallback (wrapped as a youtube-platform dict). -/

/-- The canonicalization block at the head of `_final_video_validation`:
re-clean the URL and store it back when the result is truthy and
different. -/
def fvCanon (vd : VideoData) : VideoData :=
  if vd.url ≠ [] then
    let cleaned := clean_video_url vd.url vd.platform
    if cleaned ≠ [] ∧ cleaned ≠ vd.url then { vd with url := cleaned } else vd
  else vd

/-- Python `lesson_title or "default"`. -/
def orDefaultStr (s d : Str) : Str := if s = [] then d else s

def _final_video_validation (video_data : VideoData) (lesson_title extraction_method : Str)
    (driver : Option PageEnv) (st : SessState × LessonCtx) :
    Option VideoData × (SessState × LessonCtx) :=
  let title := orDefaultStr lesson_title "Unknown Lesson".toList
  let em := orDefaultStr extraction_method "Unknown Method".toList
  let vd := fvCanon video_data
  if vd.url = [] then (none, st)
  else if is_valid_lesson_video vd.url then
    let v := validate_video_belongs_to_lesson vd.url title driver st.2
    if v.1 then
      let r := register_video_in_session vd.url title em (some video_data.platform) st.1
      if r.1 then (some vd, (r.2, v.2)) else (none, (r.2, v.2))
    else (none, (st.1, v.2))
  else (none, st)

structure PageInputs where
  modalVideo : Option VideoData
  nextData : Option VideoData
  clickVideo : Option VideoData
  iframeVideo : Option VideoData
  networkUrls : List Str
  legacyYoutubeUrl : Option Str
deriving DecidableEq

/-- The candidate each numbered method produces (after method-local
filtering: method 1 skips `skool-video-id:` URLs, method 4 runs the
network-log extractor, method 5 wraps the legacy URL as a youtube
candidate). -/
def stageCand (inp : PageInputs) : Nat → Option VideoData
  | 0 => inp.modalVideo
  | 1 =>
    match inp.nextData with
    | some vd =>
      if vd.url ≠ [] && (stripPfxQ vd.url "skool-video-id:".toList).isSome then none
      else some vd
    | none => none
  | 2 => inp.clickVideo
  | 3 => inp.iframeVideo
  | 4 => _extract_video_from_network_logs inp.networkUrls
  | 5 => inp.legacyYoutubeUrl.map (fun u => ⟨u, "youtube".toList⟩)
  | _ => none

def stageTag : Nat → Str
  | 0 => "METHOD_0_MODAL".toList
  | 1 => "METHOD_1_JSON".toList
  | 2 => "METHOD_2_CLICK".toList
  | 3 => "METHOD_3_IFRAME".toList
  | 4 => "METHOD_4_NETWORK".toList
  | _ => "METHOD_5_LEGACY".toList

/-- One method block of `extract_video_url`: no candidate falls through;
an early session duplicate is blocked; for all methods except the network
one a failing validity gate blocks; otherwise the candidate goes to the
Final Validation Checkpoint. -/
def methodStep (cand : Option VideoData) (em lesson_title : Str) (driver : Option PageEnv)
    (precheck : Bool) (st : SessState × LessonCtx) :
    Option VideoData × (SessState × LessonCtx) :=
  match cand with
  | none => (none, st)
  | some vd =>
    if check_session_duplicate_early vd.url st.1 then (none, st)
    else if precheck && !(is_valid_lesson_video vd.url) then (none, st)
    else _final_video_validation vd lesson_title em driver st

/-- Run the method blocks for the given stage indices in order, stopping
at the first one whose final validation succeeds. -/
def runChain (inp : PageInputs) (lesson_title : Str) (driver : Option PageEnv) :
    List Nat → SessState × LessonCtx → Option VideoData × (SessState × LessonCtx)
  | [], st => (none, st)
  | k :: rest, st =>
    let r := methodStep (stageCand inp k) (stageTag k) lesson_title driver (decide (k ≠ 4)) st
    match r.1 with
    | some v => (some v, r.2)
    | none => runChain inp lesson_title driver rest r.2

def extract_video_url (inp : PageInputs) (lesson_title : Option Str) (driver : Option PageEnv)
    (st : SessState × LessonCtx) : Option VideoData × (SessState × LessonCtx) :=
  let title := orDefaultStr (match lesson_title with | some t => t | none => []) "Unknown Lesson".toList
  runChain inp title driver [0, 1, 2, 3, 4, 5] st

/-! ### C2: the Final Validation Checkpoint is a choke point -/

theorem fv_some_inv {vd : VideoData} {lt em : Str} {driver : Option PageEnv}
    {st : SessState × LessonCtx} {r : VideoData} {st' : SessState × LessonCtx}
    (h : _final_video_validation vd lt em driver st = (some r, st')) :
    r = fvCanon vd ∧
    is_valid_lesson_video (fvCanon vd).url = true ∧
    (validate_video_belongs_to_lesson (fvCanon vd).url
        (orDefaultStr lt "Unknown Lesson".toList) driver st.2).1 = true ∧
    (register_video_in_session (fvCanon vd).url (orDefaultStr lt "Unknown Lesson".toList)
        (orDefaultStr em "Unknown Method".toList) (some vd.platform) st.1).1 = true ∧
    st' = ((register_video_in_session (fvCanon vd).url (orDefaultStr lt "Unknown Lesson".toList)
              (orDefaultStr em "Unknown Method".toList) (some vd.platform) st.1).2,
           (validate_video_belongs_to_lesson (fvCanon vd).url
              (orDefaultStr lt "Unknown Lesson".toList) driver st.2).2) := by
  simp only [_final_video_validation] at h
  split at h
  · exact absurd h (by simp)
  · split at h
    · rename_i hvalid
      split at h
      · rename_i hbelongs
        split at h
        · rename_i hreg
          rw [Prod.mk.injEq, Option.some_inj] at h
          exact ⟨h.1.symm, hvalid, hbelongs, hreg, h.2.symm⟩
        · exact absurd h (by simp)
      · exact absurd h (by simp)
    · exact absurd h (by simp)

theorem fv_invalid_short_circuit {vd : VideoData} {lt em : Str} {driver : Option PageEnv}
    {st : SessState × LessonCtx}
    (hvalid : is_valid_lesson_video (fvCanon vd).url = false) :
    _final_video_validation vd lt em driver st = (none, st) := by
  simp only [_final_video_validation]
  split
  · rfl
  · rw [hvalid]
    simp

theorem fv_irrelevant_short_circuit {vd : VideoData} {lt em : Str} {driver : Option PageEnv}
    {st : SessState × LessonCtx}
    (hvalid : is_valid_lesson_video (fvCanon vd).url = true)
    (hbel : (validate_video_belongs_to_lesson (fvCanon vd).url
        (orDefaultStr lt "Unknown Lesson".toList) driver st.2).1 = false) :
    _final_video_validation vd lt em driver st
      = (none, (st.1, (validate_video_belongs_to_lesson (fvCanon vd).url
          (orDefaultStr lt "Unknown Lesson".toList) driver st.2).2)) := by
  simp only [_final_video_validation]
  split
  · rename_i hnil
    rw [hnil] at hvalid
    exact absurd hvalid (by decide)
  · rw [hbel]
    simp

theorem methodStep_some_inv {cand : Option VideoData} {em lt : Str} {driver : Option PageEnv}
    {pc : Bool} {st st' : SessState × LessonCtx} {r : VideoData}
    (h : methodStep cand em lt driver pc st = (some r, st')) :
    ∃ vd, cand = some vd ∧ _final_video_validation vd lt em driver st = (some r, st') := by
  cases cand with
  | none => simp [methodStep] at h
  | some vd =>
    simp only [methodStep] at h
    split at h
    · exact absurd h (by simp)
    · split at h
      · exact absurd h (by simp)
      · exact ⟨vd, rfl, h⟩

theorem runChain_some_from_fv {inp : PageInputs} {lt : Str} {driver : Option PageEnv}
    {ks : List Nat} {st st' : SessState × LessonCtx} {r : VideoData}
    (h : runChain inp lt driver ks st = (some r, st')) :
    ∃ vd em st0, _final_video_validation vd lt em driver st0 = (some r, st') := by
  induction ks generalizing st with
  | nil => simp [runChain] at h
  | cons k rest ih =>
    simp only [runChain] at h
    cases hm : methodStep (stageCand inp k) (stageTag k) lt driver (decide (k ≠ 4)) st with
    | mk o st2 =>
      rw [hm] at h
      cases o with
      | some v =>
        have h' : ((some v : Option VideoData), st2) = (some r, st') := h
        rw [Prod.mk.injEq, Option.some_inj] at h'
        obtain ⟨vd, _, hfv⟩ := methodStep_some_inv hm
        rw [h'.1, h'.2] at hfv
        exact ⟨vd, stageTag k, st, hfv⟩
      | none =>
        exact ih (show runChain inp lt driver rest st2 = (some r, st') from h)

/-- C2: the Final Validation Checkpoint is the single choke point.  A
non-null result of `_final_video_validation` means the canonicalized
candidate passed, in order, the validity gate, the lesson-relevance check
and the session registration; the check short-circuits on the first
failure (leaving the remaining state untouched); and every non-null
result of `extract_video_url` was produced by a call to
`_final_video_validation` that returned it. -/
theorem final_validation_choke :
    (∀ (vd : VideoData) (lt em : Str) (driver : Option PageEnv)
        (st : SessState × LessonCtx) (r : VideoData) (st' : SessState × LessonCtx),
      _final_video_validation vd lt em driver st = (some r, st') →
      r = fvCanon vd ∧
      is_valid_lesson_video r.url = true ∧
      (validate_video_belongs_to_lesson r.url
          (orDefaultStr lt "Unknown Lesson".toList) driver st.2).1 = true ∧
      (register_video_in_session r.url (orDefaultStr lt "Unknown Lesson".toList)
          (orDefaultStr em "Unknown Method".toList) (some vd.platform) st.1).1 = true) ∧
    (∀ (vd : VideoData) (lt em : Str) (driver : Option PageEnv) (st : SessState × LessonCtx),
      is_valid_lesson_video (fvCanon vd).url = false →
      _final_video_validation vd lt em driver st = (none, st)) ∧
    (∀ (vd : VideoData) (lt em : Str) (driver : Option PageEnv) (st : SessState × LessonCtx),
      is_valid_lesson_video (fvCanon vd).url = true →
      (validate_video_belongs_to_lesson (fvCanon vd).url
          (orDefaultStr lt "Unknown Lesson".toList) driver st.2).1 = false →
      _final_video_validation vd lt em driver st
        = (none, (st.1, (validate_video_belongs_to_lesson (fvCanon vd).url
            (orDefaultStr lt "Unknown Lesson".toList) driver st.2).2))) ∧
    (∀ (inp : PageInputs) (lt : Option Str) (driver : Option PageEnv)
        (st st' : SessState × LessonCtx) (r : VideoData),
      extract_video_url inp lt driver st = (some r, st') →
      ∃ vd em st0, _final_video_validation vd
        (orDefaultStr (match lt with | some t => t | none => []) "Unknown Lesson".toList)
        em driver st0 = (some r, st')) := by
  refine ⟨?_, ?_, ?_, ?_⟩
  · intro vd lt em driver st r st' h
    obtain ⟨h1, h2, h3, h4, _⟩ := fv_some_inv h
    subst h1
    exact ⟨rfl, h2, h3, h4⟩
  · intro vd lt em driver st h
    exact fv_invalid_short_circuit h
  · intro vd lt em driver st h1 h2
    exact fv_irrelevant_short_circuit h1 h2
  · intro inp lt driver st st' r h
    exact runChain_some_from_fv h

/-- Witness for `final_validation_choke` at a concrete successful
validation and a concrete failing one. -/
theorem final_validation_choke_witness :
    (⟨"https://vimeo.com/123456789".toList, "vimeo".toList⟩ : VideoData)
        = fvCanon ⟨"https://vimeo.com/123456789".toList, "vimeo".toList⟩ ∧
    is_valid_lesson_video "https://vimeo.com/123456789".toList = true ∧
    (validate_video_belongs_to_lesson "https://vimeo.com/123456789".toList
        (orDefaultStr "Lesson 123456789".toList "Unknown Lesson".toList) none
        (⟨none, []⟩ : LessonCtx)).1 = true ∧
    (register_video_in_session "https://vimeo.com/123456789".toList
        (orDefaultStr "Lesson 123456789".toList "Unknown Lesson".toList)
        (orDefaultStr "METHOD_1_JSON".toList "Unknown Method".toList)
        (some "vimeo".toList) reset_session_tracking).1 = true :=
  final_validation_choke.1 ⟨"https://vimeo.com/123456789".toList, "vimeo".toList⟩
    "Lesson 123456789".toList "METHOD_1_JSON".toList none
    (reset_session_tracking, ⟨none, []⟩)
    ⟨"https://vimeo.com/123456789".toList, "vimeo".toList⟩
    ((register_video_in_session "https://vimeo.com/123456789".toList
        (orDefaultStr "Lesson 123456789".toList "Unknown Lesson".toList)
        (orDefaultStr "METHOD_1_JSON".toList "Unknown Method".toList)
        (some "vimeo".toList) reset_session_tracking).2,
     (validate_video_belongs_to_lesson "https://vimeo.com/123456789".toList
        (orDefaultStr "Lesson 123456789".toList "Unknown Lesson".toList) none
        (⟨none, []⟩ : LessonCtx)).2)
    (by decide)

/-! ### C9: strategy fallthrough -/

/-- C9: strategy fallthrough.  In `extract_video_url`'s fixed method
order, when a method yields no candidate, or its candidate is blocked by
the early duplicate check, or (for the validity-prechecked methods)
rejected by the validity gate, or rejected by the Final Validation
Checkpoint, the remaining methods are still run (on the resulting state);
and when every method yields no candidate, `extract_video_url` returns
`none` with the state unchanged (recorded as "no video", not an
error). -/
theorem strategy_fallthrough :
    (∀ (inp : PageInputs) (lt : Str) (driver : Option PageEnv) (k : Nat) (rest : List Nat)
        (st : SessState × LessonCtx),
      stageCand inp k = none →
      runChain inp lt driver (k :: rest) st = runChain inp lt driver rest st) ∧
    (∀ (inp : PageInputs) (lt : Str) (driver : Option PageEnv) (k : Nat) (rest : List Nat)
        (st : SessState × LessonCtx) (vd : VideoData),
      stageCand inp k = some vd →
      check_session_duplicate_early vd.url st.1 = true →
      runChain inp lt driver (k :: rest) st = runChain inp lt driver rest st) ∧
    (∀ (inp : PageInputs) (lt : Str) (driver : Option PageEnv) (k : Nat) (rest : List Nat)
        (st : SessState × LessonCtx) (vd : VideoData),
      stageCand inp k = some vd →
      check_session_duplicate_early vd.url st.1 = false →
      k ≠ 4 →
      is_valid_lesson_video vd.url = false →
      runChain inp lt driver (k :: rest) st = runChain inp lt driver rest st) ∧
    (∀ (inp : PageInputs) (lt : Str) (driver : Option PageEnv) (k : Nat) (rest : List Nat)
        (st st2 : SessState × LessonCtx) (vd : VideoData),
      stageCand inp k = some vd →
      check_session_duplicate_early vd.url st.1 = false →
      (decide (k ≠ 4) && !(is_valid_lesson_video vd.url)) = false →
      _final_video_validation vd lt (stageTag k) driver st = (none, st2) →
      runChain inp lt driver (k :: rest) st = runChain inp lt driver rest st2) ∧
    (∀ (inp : PageInputs) (lt : Option Str) (driver : Option PageEnv)
        (st : SessState × LessonCtx),
      (∀ j, stageCand inp j = none) →
      extract_video_url inp lt driver st = (none, st)) := by
  refine ⟨?_, ?_, ?_, ?_, ?_⟩
  · intro inp lt driver k rest st hc
    simp [runChain, methodStep, hc]
  · intro inp lt driver k rest st vd hc hdup
    simp [runChain, methodStep, hc, hdup]
  · intro inp lt driver k rest st vd hc hdup hk hval
    simp [runChain, methodStep, hc, hdup, hk, hval]
  · intro inp lt driver k rest st st2 vd hc hdup hpre hfv
    have hcond : ¬(¬k = 4 ∧ is_valid_lesson_video vd.url = false) := by
      rintro ⟨hk, hv⟩
      rw [decide_eq_true hk, hv] at hpre
      exact absurd hpre (by decide)
    simp [runChain, methodStep, hc, hdup, hfv, hcond]
  · intro inp lt driver st hall
    simp [extract_video_url, runChain, methodStep, hall 0, hall 1, hall 2, hall 3,
      hall 4, hall 5]

/-- Witness for `strategy_fallthrough` at concrete inputs. -/
theorem strategy_fallthrough_witness :
    (runChain ⟨none, none, none, none, [], none⟩ "L".toList none (0 :: [1])
        (reset_session_tracking, ⟨none, []⟩)
      = runChain ⟨none, none, none, none, [], none⟩ "L".toList none [1]
        (reset_session_tracking, ⟨none, []⟩)) ∧
    extract_video_url ⟨none, none, none, none, [], none⟩ (some "L".toList) none
        (reset_session_tracking, ⟨none, []⟩)
      = (none, (reset_session_tracking, ⟨none, []⟩)) :=
  ⟨strategy_fallthrough.1 ⟨none, none, none, none, [], none⟩ "L".toList none 0 [1]
      (reset_session_tracking, ⟨none, []⟩) (by decide),
   strategy_fallthrough.2.2.2.2 ⟨none, none, none, none, [], none⟩ (some "L".toList) none
      (reset_session_tracking, ⟨none, []⟩)
      (fun j => by
        match j with
        | 0 => rfl
        | 1 => rfl
        | 2 => rfl
        | 3 => rfl
        | 4 => rfl
        | 5 => rfl
        | (n + 6) => rfl)⟩

end SkoolX
